import Mathlib

/-!
Shallow embedding of the Veltris Codex ai-services backend (Python), covering
the pieces the specification claims talk about:

* `src/services/tools/file_system.py` — sandboxed path validation, `read_file`,
  `write_file` (paths are modelled lexically: components after the filesystem
  root, with `..`/`.` handling as in `pathlib.Path.resolve` on a symlink-free
  tree);
* `src/services/tool_executor.py` — `ToolExecutor.execute_tool` (the dispatcher);
* `src/services/providers/openai_provider.py`, `claude_provider.py`,
  `ollama_provider.py` — the three stream adapters, modelled as pure functions
  from the list of upstream wire chunks (plus an optional upstream failure) to
  the list of emitted stream events; side-effecting collaborators (the JSON
  parser, the tool dispatcher, the wall clock) enter as explicit function
  parameters;
* `src/routes/chat.py` — the direct-tool-call bypass branch of
  `stream_chat.generate_stream`;
* `src/services/tools/doc_generator.py` —
  `DocumentationService.generate_multiple_documentation`.

The wall clock `int(time.time() * 1000)` is modelled as a function
`clock : Nat → Nat` applied to the index of the reading: the k-th executed
timestamp expression of a stream evaluates to `clock k`.
-/

namespace Codex

/-- JSON-like values: tool parameters and tool results (Python dicts/lists). -/
inductive Val where
  | vNull : Val
  | vBool : Bool → Val
  | vNum : Int → Val
  | vStr : String → Val
  | vArr : List Val → Val
  | vObj : List (String × Val) → Val

/-- Python truthiness of an `Optional[str]`: `None` and `""` are falsy. -/
def truthyS : Option String → Bool
  | none => false
  | some s => s != ""

/-- Python `sep.join(parts)`. -/
def pyJoin (sep : String) : List String → String
  | [] => ""
  | [x] => x
  | x :: y :: xs => x ++ sep ++ pyJoin sep (y :: xs)

/-! ## Filesystem sandbox (`src/services/tools/file_system.py`) -/

/-- A parsed `pathlib.Path`: whether it is absolute, and its components
(`pathlib` drops empty components and `.` at construction, keeps `..`). -/
structure PyPath where
  absolute : Bool
  comps : List String

/-- Split a character list at every slash. -/
def splitSlash : List Char → List (List Char)
  | [] => [[]]
  | c :: rest =>
    let r := splitSlash rest
    if c = '/' then [] :: r
    else match r with
      | [] => [[c]]
      | g :: gs => (c :: g) :: gs

/-- Parse a Python path string the way `pathlib.PurePosixPath` does: a leading
slash makes it absolute; empty components and `.` are dropped at construction
(`..` is kept, `resolve` deals with it). -/
def parsePath (s : String) : PyPath :=
  { absolute := match s.data with
      | c :: _ => c = '/'
      | [] => false
    comps := ((splitSlash s.data).map (fun cs => String.mk cs)).filter
      (fun c => c != "" && c != ".") }

/-- Lexical `Path.resolve` on components: `.` is dropped, `..` removes the last
component (at the root it stays at the root), other components are appended. -/
def resolveComps (acc : List String) : List String → List String
  | [] => acc
  | c :: rest =>
    if c = "." then resolveComps acc rest
    else if c = ".." then resolveComps acc.dropLast rest
    else resolveComps (acc ++ [c]) rest

/-- `str(Path)` for a resolved absolute path. -/
def showAbs (comps : List String) : String :=
  "/" ++ pyJoin "/" comps

/-- Exceptions raised by `get_validated_path`. -/
inductive PyExc where
  | valueError (msg : String)
  | securityException (msg : String)

/-- `str(e)` of the exception. -/
def PyExc.text : PyExc → String
  | .valueError m => m
  | .securityException m => m

/-- The filesystem as seen by the tools: the set of directories and an
association of file paths to contents (both keyed by resolved components). -/
structure FileSystem where
  dirs : List (List String)
  files : List (List String × String)

/-- Association lookup on file contents. -/
def lookupFile : List (List String × String) → List String → Option String
  | [], _ => none
  | (k, v) :: rest, p => if k = p then some v else lookupFile rest p

/-- Association update/insert on file contents. -/
def setFile : List (List String × String) → List String → String → List (List String × String)
  | [], p, c => [(p, c)]
  | (k, v) :: rest, p, c => if k = p then (p, c) :: rest else (k, v) :: setFile rest p c

/-- `get_validated_path(base_path, file_path)` (file_system.py:12-26): require a
base directory, resolve it (relative bases resolve against `cwd`), require it to
be a directory, resolve the joined target, and require the target to stay inside
the base (`full_path.is_relative_to(base_path)`), else raise `SecurityException`. -/
def get_validated_path (fs : FileSystem) (cwd : List String)
    (base_path : Option String) (file_path : String) : Except PyExc (List String) :=
  match base_path with
  | none => .error (.valueError "A working directory must be specified.")
  | some b =>
    if b = "" then .error (.valueError "A working directory must be specified.")
    else
      let bp := parsePath b
      let base := resolveComps [] (if bp.absolute then bp.comps else cwd ++ bp.comps)
      if fs.dirs.contains base then
        let fp := parsePath file_path
        let full := resolveComps [] (if fp.absolute then fp.comps else base ++ fp.comps)
        if base <+: full then .ok full
        else .error (.securityException ("Attempted path traversal: " ++ file_path))
      else .error (.valueError ("Invalid base path: " ++ showAbs base))

/-- Result dict of `read_file`. -/
structure ReadResult where
  content : String

/-- Result dict of `write_file`. -/
structure WriteResult where
  success : Bool
  message : String

/-- `read_file(absolute_path, base_path)` (file_system.py:89-99). `osErr`
renders the OS error message for a failing `open` (file absent or a directory);
every branch returns an in-band `{"content": ...}` dict. -/
def read_file (osErr : List String → String) (fs : FileSystem) (cwd : List String)
    (absolute_path : String) (base_path : Option String) : ReadResult :=
  match get_validated_path fs cwd base_path absolute_path with
  | .error e => { content := "Error: " ++ e.text }
  | .ok full =>
    match lookupFile fs.files full with
    | some c => { content := c }
    | none => { content := "Error reading file: " ++ osErr full }

/-- All proper ancestor directories created by `full_path.parent.mkdir(parents=True,
exist_ok=True)`: every prefix of the parent of the target. -/
def mkdirParents (dirs : List (List String)) (full : List String) : List (List String) :=
  dirs ++ ((full.dropLast.inits).filter (fun d => !dirs.contains d))

/-- `write_file(file_path, content, base_path)` (file_system.py:101-112):
validate, create parent directories, then write; validation failures leave the
filesystem untouched and report `success: False` in-band. -/
def write_file (osErr : List String → String) (fs : FileSystem) (cwd : List String)
    (file_path : String) (content : String) (base_path : Option String) :
    WriteResult × FileSystem :=
  match get_validated_path fs cwd base_path file_path with
  | .error e => ({ success := false, message := "Error: " ++ e.text }, fs)
  | .ok full =>
    let fs1 : FileSystem := { fs with dirs := mkdirParents fs.dirs full }
    if fs1.dirs.contains full then
      ({ success := false, message := "Error writing file: " ++ osErr full }, fs1)
    else
      ({ success := true, message := "File " ++ file_path ++ " written successfully." },
       { fs1 with files := setFile fs1.files full content })

/-! ## Tool dispatcher (`src/services/tool_executor.py`) -/

/-- Exceptions that a tool body can raise into `execute_tool`'s handlers:
pydantic `ValidationError`, the service's own `ToolExecutionError`, or any
other exception (all carrying their `str(e)` rendering). -/
inductive PyErr where
  | validationError (detail : String)
  | toolExecError (msg : String)
  | otherError (msg : String)

/-- `str(e)` of a tool-body exception. -/
def PyErr.text : PyErr → String
  | .validationError d => d
  | .toolExecError m => m
  | .otherError m => m

/-- The dict returned by `ToolExecutor.execute_tool` on the non-raising path. -/
structure Envelope (ρ : Type) where
  success : Bool
  result : ρ
  tool_name : String

/-- The keys of `ToolExecutor.tools` (tool_executor.py:40-54). -/
def toolNames : List String :=
  ["generate_code_diff", "generate_documentation", "generate_multiple_documentation",
   "analyze_code_structure", "refactor_code", "list_directory", "read_file",
   "write_file", "generate_code", "modify_file_with_diff", "smart_code_action",
   "security_analysis", "comprehensive_code_review"]

/-- The `working_directory` injection (tool_executor.py:62-64): when a context
with a truthy working directory is present, it is merged into the parameters. -/
def mergedParams {π : Type} (merge : π → String → π) (parameters : π)
    (ctxWd : Option String) : π :=
  match ctxWd with
  | some wd => if wd = "" then parameters else merge parameters wd
  | none => parameters

/-- `ToolExecutor.execute_tool(tool_name, parameters, context)`
(tool_executor.py:56-78). `merge` models the `working_directory` injection from
the context; `body` models the per-tool handler `self.tools[tool_name]` applied
to the parameters, returning a result or raising. An unknown tool name raises
`ToolExecutionError("Unknown tool: ...")`; an escaping `ValidationError` is
rewrapped as `ToolExecutionError("Parameter validation failed: ...")`; any other
exception as `ToolExecutionError("Tool execution failed: ...")`. The `.error`
constructor of the return type is the raised `ToolExecutionError`'s message. -/
def execute_tool {π ρ : Type} (merge : π → String → π) (body : String → π → Except PyErr ρ)
    (tool_name : String) (parameters : π) (ctxWd : Option String) :
    Except String (Envelope ρ) :=
  if toolNames.contains tool_name then
    match body tool_name (mergedParams merge parameters ctxWd) with
    | .ok r => .ok { success := true, result := r, tool_name := tool_name }
    | .error (.validationError d) => .error ("Parameter validation failed: " ++ d)
    | .error e => .error ("Tool execution failed: " ++ e.text)
  else .error ("Unknown tool: " ++ tool_name)

/-- Parameters of the `read_file` tool as extracted by `_execute_read_file`
(tool_executor.py:134-139): `parameters.get('absolute_path')`,
`parameters.get('base_path')`. -/
structure ReadFileParams where
  absolute_path : String
  base_path : Option String

/-- The `read_file` tool body `_execute_read_file` over a fixed filesystem:
it simply awaits `read_file`, which never raises on string inputs. -/
def readFileBody (osErr : List String → String) (fs : FileSystem) (cwd : List String) :
    String → ReadFileParams → Except PyErr ReadResult :=
  fun _ p => .ok (read_file osErr fs cwd p.absolute_path p.base_path)

/-! ## Normalized stream events (`src/models/streaming.py`) -/

/-- `ToolStatus` enum. -/
inductive ToolStatus where
  | executing
  | completed
  | failed

/-- The five stream chunk variants, each carrying its millisecond timestamp. -/
inductive StreamEvent where
  | aiChunk (content : String) (timestamp : Nat)
  | toolStatus (tool : String) (status : ToolStatus) (timestamp : Nat)
  | toolResult (tool : String) (result : Val) (timestamp : Nat)
  | error (err : String) (timestamp : Nat)
  | done (timestamp : Nat)

/-- Discriminator: is this a `DoneChunk`? -/
def StreamEvent.isDone : StreamEvent → Bool
  | .done _ => true
  | _ => false

/-- Discriminator: is this an `ErrorChunk`? -/
def StreamEvent.isError : StreamEvent → Bool
  | .error _ _ => true
  | _ => false

/-- Discriminator: is this an `AIChunk` (a text delta)? -/
def StreamEvent.isText : StreamEvent → Bool
  | .aiChunk _ _ => true
  | _ => false

/-- Discriminator: is this `ToolStatusChunk(status='executing')`? -/
def StreamEvent.isExecuting : StreamEvent → Bool
  | .toolStatus _ .executing _ => true
  | _ => false

/-- The timestamp carried by an event. -/
def StreamEvent.ts : StreamEvent → Nat
  | .aiChunk _ t => t
  | .toolStatus _ _ t => t
  | .toolResult _ _ t => t
  | .error _ t => t
  | .done t => t

/-! ## Direct tool call bypass (`src/routes/chat.py:67-96`) -/

/-- The direct-tool-call branch of `stream_chat.generate_stream`: emit the
executing status, run the dispatcher, then either the result followed by the
completed status (the result timestamp is read once and shared by both, chat.py:86-88)
or a translated error, and unconditionally a final `Done`. `outcome` is the
dispatcher call's result: an envelope, or the message of a raised exception. -/
def generate_stream_tool_call (clock : Nat → Nat) (toolName : String)
    (outcome : Except String (Envelope Val)) : List StreamEvent :=
  .toolStatus toolName .executing (clock 0) ::
  (match outcome with
   | .ok env =>
     [.toolResult toolName env.result (clock 1), .toolStatus toolName .completed (clock 1)]
   | .error e => [.error ("Tool execution failed: " ++ e) (clock 1)]) ++
  [.done (clock 2)]

/-! ## Dispatcher as seen by the adapters

The adapters call `get_tool_executor().execute_tool(...)`, which either returns
an envelope dict or raises `ToolExecutionError`. -/

/-- Outcome of an `execute_tool` call made from inside an adapter. -/
inductive DispatchOutcome where
  | envelope (success : Bool) (result : Val)
  | raised (msg : String)

/-! ## OpenAI adapter (`src/services/providers/openai_provider.py:57-143`) -/

/-- One entry of `delta.tool_calls`: `tool_call.id`, `tool_call.function.name`,
`tool_call.function.arguments` (each possibly absent). -/
structure ToolCallDelta where
  id : Option String
  name : Option String
  arguments : Option String

/-- `chunk.choices[0].delta`. -/
structure ChoiceDelta where
  content : Option String
  tool_calls : List ToolCallDelta

/-- One upstream chunk: the delta (absent when `choices` is empty, in which
case the whole iteration body is skipped) and `finish_reason`. -/
structure OpenAIChunk where
  delta : Option ChoiceDelta
  finish_reason : Option String

/-- The `current_tool_call` dict. -/
structure PendingToolCall where
  id : Option String
  name : String
  arguments : String

/-- Loop state of `OpenAIProvider.stream_chat`: the pending tool call, the
number of clock readings taken so far, the events yielded so far, and the trace
of dispatcher calls made so far. -/
structure OAState where
  current : Option PendingToolCall
  k : Nat
  events : List StreamEvent
  calls : List (String × Val)

/-- Initial loop state. -/
def OAState.init : OAState := { current := none, k := 0, events := [], calls := [] }

/-- Processing of one `delta.tool_calls` entry (openai_provider.py:74-91): a
truthy `function.name` starts a fresh pending call and immediately yields
`ToolStatusChunk(executing)`; a truthy `function.arguments` is appended to the
pending call's accumulated text with no event. -/
def openaiStepToolCall (clock : Nat → Nat) (s : OAState) (tc : ToolCallDelta) : OAState :=
  let s1 := match tc.name with
    | some n =>
      if n = "" then s
      else { s with current := some { id := tc.id, name := n, arguments := "" }
                    events := s.events ++ [.toolStatus n .executing (clock s.k)]
                    k := s.k + 1 }
    | none => s
  match tc.arguments with
  | some a =>
    if a = "" then s1
    else match s1.current with
      | some c => { s1 with current := some { c with arguments := c.arguments ++ a } }
      | none => s1
  | none => s1

/-- The finish-reason block (openai_provider.py:94-134) applied to a pending
call with non-empty accumulated arguments: parse the accumulated text, dispatch
on success, translate the outcome, and clear the pending slot in every branch. -/
def finishToolCall (clock : Nat → Nat) (jsonLoads : String → Except String Val)
    (dispatch : String → Val → DispatchOutcome) (s : OAState) (c : PendingToolCall) : OAState :=
  match jsonLoads c.arguments with
  | .ok args =>
    match dispatch c.name args with
    | .envelope true r =>
      { s with current := none
               events := s.events ++
                 [.toolResult c.name r (clock s.k),
                  .toolStatus c.name .completed (clock (s.k + 1))]
               k := s.k + 2
               calls := s.calls ++ [(c.name, args)] }
    | .envelope false _ =>
      { s with current := none
               events := s.events ++ [.toolStatus c.name .failed (clock s.k)]
               k := s.k + 1
               calls := s.calls ++ [(c.name, args)] }
    | .raised m =>
      { s with current := none
               events := s.events ++ [.error ("Tool execution failed: " ++ m) (clock s.k)]
               k := s.k + 1
               calls := s.calls ++ [(c.name, args)] }
  | .error em =>
    { s with current := none
             events := s.events ++ [.error ("Tool execution failed: " ++ em) (clock s.k)]
             k := s.k + 1 }

/-- One iteration of the chunk loop (openai_provider.py:60-134): a chunk
without a delta is skipped entirely; otherwise truthy text content is yielded,
tool-call deltas are folded in, and the finish-reason check runs (only firing
when a pending call with non-empty arguments exists). -/
def openaiStepChunk (clock : Nat → Nat) (jsonLoads : String → Except String Val)
    (dispatch : String → Val → DispatchOutcome) (s : OAState) (ch : OpenAIChunk) : OAState :=
  match ch.delta with
  | none => s
  | some d =>
    let s1 := match d.content with
      | some c =>
        if c = "" then s
        else { s with events := s.events ++ [.aiChunk c (clock s.k)], k := s.k + 1 }
      | none => s
    let s2 := d.tool_calls.foldl (openaiStepToolCall clock) s1
    if ch.finish_reason = some "tool_calls" then
      match s2.current with
      | some c => if c.arguments = "" then s2 else finishToolCall clock jsonLoads dispatch s2 c
      | none => s2
    else s2

/-- `OpenAIProvider.stream_chat` as a whole: process the upstream chunks, then
either the unconditional final `DoneChunk` (openai_provider.py:137) or, when
the upstream iteration raises after the given chunks, the outer-catch
`ErrorChunk` (openai_provider.py:139-143). Returns the emitted events and the
trace of dispatcher calls. -/
def openaiStream (clock : Nat → Nat) (jsonLoads : String → Except String Val)
    (dispatch : String → Val → DispatchOutcome) (chunks : List OpenAIChunk)
    (upstreamErr : Option String) : List StreamEvent × List (String × Val) :=
  let s := chunks.foldl (openaiStepChunk clock jsonLoads dispatch) OAState.init
  match upstreamErr with
  | none => (s.events ++ [.done (clock s.k)], s.calls)
  | some m => (s.events ++ [.error ("OpenAI API error: " ++ m) (clock s.k)], s.calls)

/-! ## Claude adapter (`src/services/providers/claude_provider.py:55-129`) -/

/-- One upstream event of the content-block protocol, as discriminated by
`chunk.type` / `chunk.content_block.type` / `chunk.delta.type`. -/
inductive ClaudeChunk where
  | blockStartToolUse (id name : String)
  | blockStartOther
  | textDelta (text : String)
  | otherDelta
  | blockStopToolUse (name : String) (input : Val)
  | blockStopOther
  | messageStop
  | otherEvent

/-- Loop state of `ClaudeProvider.stream_chat`. -/
structure CLState where
  current : Option (String × String)
  k : Nat
  events : List StreamEvent

/-- Initial Claude loop state. -/
def CLState.init : CLState := { current := none, k := 0, events := [] }

/-- One iteration of the Claude chunk loop (claude_provider.py:58-117):
`content_block_start` of kind tool-use records the pending call and yields
`executing`; a text delta is forwarded unconditionally; `content_block_stop`
of kind tool-use dispatches the block's materialized input and translates the
outcome (`ToolExecutionError` is caught into an `ErrorChunk` and the loop
continues). -/
def claudeStepChunk (clock : Nat → Nat) (dispatch : String → Val → DispatchOutcome)
    (s : CLState) : ClaudeChunk → CLState
  | .blockStartToolUse i n =>
    { s with current := some (i, n)
             events := s.events ++ [.toolStatus n .executing (clock s.k)]
             k := s.k + 1 }
  | .textDelta t =>
    { s with events := s.events ++ [.aiChunk t (clock s.k)], k := s.k + 1 }
  | .blockStopToolUse n input =>
    match dispatch n input with
    | .envelope true r =>
      { s with events := s.events ++
                 [.toolResult n r (clock s.k), .toolStatus n .completed (clock (s.k + 1))]
               k := s.k + 2 }
    | .envelope false _ =>
      { s with events := s.events ++ [.toolStatus n .failed (clock s.k)], k := s.k + 1 }
    | .raised m =>
      { s with events := s.events ++ [.error ("Tool execution failed: " ++ m) (clock s.k)]
               k := s.k + 1 }
  | _ => s

/-- The Claude chunk loop: a `message_stop` breaks out (second component
records whether the break happened). -/
def claudeGo (clock : Nat → Nat) (dispatch : String → Val → DispatchOutcome)
    (s : CLState) : List ClaudeChunk → CLState × Bool
  | [] => (s, false)
  | .messageStop :: _ => (s, true)
  | c :: rest => claudeGo clock dispatch (claudeStepChunk clock dispatch s c) rest

/-- `ClaudeProvider.stream_chat` as a whole: after the loop the final
`DoneChunk` (claude_provider.py:123); if the upstream iteration raises after
the given chunks (only possible when the loop did not already break), the
outer-catch `ErrorChunk` (claude_provider.py:125-129) ends the stream instead. -/
def claudeStream (clock : Nat → Nat) (dispatch : String → Val → DispatchOutcome)
    (chunks : List ClaudeChunk) (upstreamErr : Option String) : List StreamEvent :=
  let r := claudeGo clock dispatch CLState.init chunks
  match upstreamErr with
  | none => r.1.events ++ [.done (clock r.1.k)]
  | some m =>
    if r.2 then r.1.events ++ [.done (clock r.1.k)]
    else r.1.events ++ [.error ("Claude API error: " ++ m) (clock r.1.k)]

/-! ## Ollama adapter, structured chat path
(`src/services/providers/ollama_provider.py:56-96,145-177`) -/

/-- One tool call found in a line: `function.name` and `function.arguments`
(which may arrive as an already-decoded object or as a JSON string). -/
inductive OllamaArgs where
  | objArgs (v : Val)
  | strArgs (s : String)

/-- A complete (non-fragmented) tool call from a JSON line. -/
structure OllamaToolCall where
  name : String
  args : OllamaArgs

/-- The `message` object of a decoded line: the `content` key (if present) and
the `tool_calls` key (if present). -/
structure OllamaMsg where
  content : Option String
  tool_calls : Option (List OllamaToolCall)

/-- One line of the line-delimited JSON stream: undecodable JSON (silently
skipped) or a decoded object with optional `message` and the `done` flag. -/
inductive OllamaLine where
  | malformed
  | data (message : Option OllamaMsg) (done : Bool)

/-- Ollama loop state. -/
structure OLState where
  k : Nat
  events : List StreamEvent

/-- Initial Ollama loop state. -/
def OLState.init : OLState := { k := 0, events := [] }

/-- `OllamaProvider._handle_tool_call` (ollama_provider.py:145-177): decode
string arguments, dispatch, translate; every exception inside is caught into a
single `ErrorChunk` (`Tool call error: ...`), and a returned envelope with
`success: False` yields `Tool execution failed: Unknown error` since the
envelope has no `error` key. -/
def ollamaHandleToolCall (clock : Nat → Nat) (jsonLoads : String → Except String Val)
    (dispatch : String → Val → DispatchOutcome) (s : OLState) (tc : OllamaToolCall) : OLState :=
  let argsE : Except String Val := match tc.args with
    | .objArgs v => .ok v
    | .strArgs str => jsonLoads str
  match argsE with
  | .error em =>
    { s with events := s.events ++ [.error ("Tool call error: " ++ em) (clock s.k)], k := s.k + 1 }
  | .ok args =>
    match dispatch tc.name args with
    | .envelope true r =>
      { s with events := s.events ++ [.toolResult tc.name r (clock s.k)], k := s.k + 1 }
    | .envelope false _ =>
      { s with events := s.events ++ [.error ("Tool execution failed: Unknown error") (clock s.k)]
               k := s.k + 1 }
    | .raised m =>
      { s with events := s.events ++ [.error ("Tool call error: " ++ m) (clock s.k)], k := s.k + 1 }

/-- One line of the structured chat loop (ollama_provider.py:57-89): truthy
message content is forwarded, tool calls are handled sequentially, and a
`done: true` field yields `DoneChunk` and breaks (second component). -/
def ollamaStepLine (clock : Nat → Nat) (jsonLoads : String → Except String Val)
    (dispatch : String → Val → DispatchOutcome) (s : OLState) : OllamaLine → OLState × Bool
  | .malformed => (s, false)
  | .data msg dn =>
    let s1 := match msg with
      | some m =>
        let sa := match m.content with
          | some c =>
            if c = "" then s
            else { s with events := s.events ++ [.aiChunk c (clock s.k)], k := s.k + 1 }
          | none => s
        match m.tool_calls with
        | some tcs => tcs.foldl (ollamaHandleToolCall clock jsonLoads dispatch) sa
        | none => sa
      | none => s
    if dn then ({ s1 with events := s1.events ++ [.done (clock s1.k)], k := s1.k + 1 }, true)
    else (s1, false)

/-- The structured chat line loop with the `done` break. -/
def ollamaGo (clock : Nat → Nat) (jsonLoads : String → Except String Val)
    (dispatch : String → Val → DispatchOutcome) (s : OLState) : List OllamaLine → OLState × Bool
  | [] => (s, false)
  | l :: rest =>
    let r := ollamaStepLine clock jsonLoads dispatch s l
    if r.2 then (r.1, true)
    else ollamaGo clock jsonLoads dispatch r.1 rest

/-- `OllamaProvider.stream_chat`, structured chat path, as a whole: if the
upstream line iteration ends without a `done: true` line, the loop simply ends
with no further event; if it raises after the given lines, the outer catch
(ollama_provider.py:91-96) appends one `ErrorChunk`. -/
def ollamaChatStream (clock : Nat → Nat) (jsonLoads : String → Except String Val)
    (dispatch : String → Val → DispatchOutcome) (lines : List OllamaLine)
    (upstreamErr : Option String) : List StreamEvent :=
  let r := ollamaGo clock jsonLoads dispatch OLState.init lines
  if r.2 then r.1.events
  else match upstreamErr with
    | none => r.1.events
    | some m => r.1.events ++ [.error ("Ollama API error: " ++ m) (clock r.1.k)]

/-! ## Ollama prompt construction
(`src/services/providers/ollama_provider.py:211-303`) -/

/-- `ChatContext` (models/chat.py:15-21). -/
structure ChatContext where
  file_path : Option String
  code_content : Option String
  project_structure : Option String
  referenced_files : Option (List (String × String))
  working_directory : Option String

/-- Python truthiness of `Optional[Dict[str, str]]`: `None` and `{}` are falsy. -/
def truthyRefs : Option (List (String × String)) → Bool
  | none => false
  | some l => l != []

/-- One message of the Ollama chat payload. -/
structure ChatMsg where
  role : String
  content : String

/-- The `system_content` constant of `OllamaProvider._prepare_messages`
(ollama_provider.py:222-240). -/
def ollamaSystemContent : String :=
  "You are an AI coding assistant for Veltris Codex. You help with code generation, analysis, refactoring, and documentation.\n" ++
  "\n" ++
  "Available tools:\n" ++
  "- generate_code: For generating code in any language. Use this when the user asks you to generate code.\n" ++
  "- generate_documentation: For creating a single document (BRD, SRD, README, or API_DOCS).\n" ++
  "- generate_multiple_documentation: For creating multiple documents at once.\n" ++
  "- modify_file_with_diff: PREFERRED for any code improvements, optimizations, or changes. Shows red/green diff for user approval before applying changes.\n" ++
  "- smart_code_action: AI-powered code improvements with automatic strategy selection and diff preview.  \n" ++
  "- comprehensive_code_review: Complete code review with security analysis, quality metrics, and AI insights.\n" ++
  "- security_analysis: Analyze code for security vulnerabilities and weaknesses.\n" ++
  "- analyze_code_structure: Analyze code patterns and structure\n" ++
  "- refactor_code: Basic refactoring (use modify_file_with_diff instead for actual code changes)\n" ++
  "\n" ++
  "IMPORTANT:\n" ++
  "- When asked to generate code, use the `generate_code` tool. For example, if the user asks \"Generate me a python function to find the first 20 fibonacci numbers\", you should call the `generate_code` tool with the prompt \"a python function to find the first 20 fibonacci numbers\" and the file_path \"fibonacci.py\".\n" ++
  "- When asked to generate documentation, use the `generate_documentation` or `generate_multiple_documentation` tools. Infer the `doc_types` from the user\x27s message.\n" ++
  "- When users request code improvements, optimizations, fixes, or changes to files, ALWAYS use \x27modify_file_with_diff\x27 to show a visual diff for approval.\n" ++
  "\n" ++
  "Use tools when appropriate to help users with their coding tasks. Always provide helpful explanations along with tool results."

/-- Context parts built by `OllamaProvider._prepare_messages`
(ollama_provider.py:250-263): current file plus code (only when both are
truthy), working directory, then the referenced files block. -/
def ollamaContextParts (ctx : ChatContext) : List String :=
  (if truthyS ctx.file_path && truthyS ctx.code_content then
     ["Current file: " ++ ctx.file_path.getD "",
      "Current code:\n```\n" ++ ctx.code_content.getD "" ++ "\n```"]
   else []) ++
  (if truthyS ctx.working_directory then
     ["Working directory: " ++ ctx.working_directory.getD ""]
   else []) ++
  (if truthyRefs ctx.referenced_files then
     "Referenced files:" ::
       (ctx.referenced_files.getD []).map
         (fun pc => "\n" ++ pc.1 ++ ":\n```\n" ++ pc.2 ++ "\n```")
   else [])

/-- `OllamaProvider._prepare_messages` (ollama_provider.py:211-277): system
message, one user message holding the context parts joined by blank lines (only
when any part exists), then the user message. -/
def ollama_prepare_messages (message : String) (ctx : Option ChatContext) : List ChatMsg :=
  { role := "system", content := ollamaSystemContent } ::
  (match ctx with
   | some c =>
     let parts := ollamaContextParts c
     if parts.isEmpty then [] else [{ role := "user", content := pyJoin "\n\n" parts }]
   | none => []) ++
  [{ role := "user", content := message }]

/-- The system line of `OllamaProvider._prepare_prompt_with_context`
(ollama_provider.py:284). -/
def fallbackSysLine : String :=
  "You are an AI coding assistant for Veltris Codex. You help with code generation, analysis, refactoring, and documentation."

/-- Context parts built by `OllamaProvider._prepare_prompt_with_context`
(ollama_provider.py:287-298); note the extra leading newline on the first part
of each field group, absent from `_prepare_messages`. -/
def fallbackContextParts (ctx : ChatContext) : List String :=
  (if truthyS ctx.file_path && truthyS ctx.code_content then
     ["\nCurrent file: " ++ ctx.file_path.getD "",
      "Current code:\n```\n" ++ ctx.code_content.getD "" ++ "\n```"]
   else []) ++
  (if truthyS ctx.working_directory then
     ["\nWorking directory: " ++ ctx.working_directory.getD ""]
   else []) ++
  (if truthyRefs ctx.referenced_files then
     "\nReferenced files:" ::
       (ctx.referenced_files.getD []).map
         (fun pc => "\n" ++ pc.1 ++ ":\n```\n" ++ pc.2 ++ "\n```")
   else [])

/-- `OllamaProvider._prepare_prompt_with_context` (ollama_provider.py:279-303):
the flattened fallback prompt, parts joined by single newlines. -/
def ollama_prepare_prompt_with_context (message : String) (ctx : Option ChatContext) : String :=
  pyJoin "\n"
    (fallbackSysLine ::
     (match ctx with | some c => fallbackContextParts c | none => []) ++
     ["\nUser request: " ++ message])

/-! ## Multi-documentation generation
(`src/services/tools/doc_generator.py:69-104`) -/

/-- `DocType` enum (models/tools.py). -/
inductive DocType where
  | BRD
  | SRD
  | README
  | API_DOCS

/-- `doc_type.value`. -/
def DocType.value : DocType → String
  | .BRD => "BRD"
  | .SRD => "SRD"
  | .README => "README"
  | .API_DOCS => "API_DOCS"

/-- `MultiDocumentationParams`. -/
structure MultiDocumentationParams where
  doc_types : List DocType
  project_context : String
  code_structure : Option String

/-- `DocumentationResult` as produced by `generate_documentation`. -/
structure DocumentationResult where
  content : String
  doc_type : String
  sections : List String
  word_count : Nat

/-- One entry of the list returned by `generate_multiple_documentation`. -/
structure MultiDocEntry where
  doc_type : String
  file_path : String
  success : Bool
  message : String
  word_count : Nat

/-- The inner `generate_and_write_doc` (doc_generator.py:73-100). `genDoc`
models `self.generate_documentation(single_params)` for the fixed project
context (it may raise, carrying `str(e)`); `writeDoc` models
`write_file(file_name, content, working_directory)` returning the
success/message pair. Any exception produces the failure entry for this doc
type alone. -/
def generate_and_write_doc (genDoc : DocType → Except String DocumentationResult)
    (writeDoc : String → String → Bool × String) (d : DocType) : MultiDocEntry :=
  match genDoc d with
  | .ok res =>
    let fileName := "generated_docs/" ++ d.value ++ ".md"
    let w := writeDoc fileName res.content
    { doc_type := d.value, file_path := fileName, success := w.1
      message := w.2, word_count := res.word_count }
  | .error e =>
    { doc_type := d.value, file_path := "generated_docs/" ++ d.value ++ ".md"
      success := false, message := "Failed to generate " ++ d.value ++ ": " ++ e
      word_count := 0 }

/-- `DocumentationService.generate_multiple_documentation`
(doc_generator.py:69-104): one task per requested doc type, joined by
`asyncio.gather`, which returns the results in task (request) order. -/
def generate_multiple_documentation (genDoc : DocType → Except String DocumentationResult)
    (writeDoc : String → String → Bool × String) (params : MultiDocumentationParams) :
    List MultiDocEntry :=
  params.doc_types.map (generate_and_write_doc genDoc writeDoc)

/-! ## Theorems -/

/-- C1: whenever the resolved target of `base_path/file_path` is not contained
in the resolved base directory (not a descendant, i.e. the base is not a prefix
of the resolved target), `write_file` fails closed with the path-traversal
error envelope (`success: false`) and leaves the filesystem completely
unchanged (so no file outside the base directory is created or modified), and
`read_file` is guarded by the same containment check, reporting the same
traversal error. -/
theorem write_read_traversal_fails_closed
    (osErr : List String → String) (fs : FileSystem) (cwd : List String)
    (b file_path content : String) (base full : List String)
    (hb : ¬ b = "")
    (hbase : base = resolveComps []
      (if (parsePath b).absolute then (parsePath b).comps else cwd ++ (parsePath b).comps))
    (hfull : full = resolveComps []
      (if (parsePath file_path).absolute then (parsePath file_path).comps
       else base ++ (parsePath file_path).comps))
    (hdir : fs.dirs.contains base = true)
    (hesc : ¬ base <+: full) :
    write_file osErr fs cwd file_path content (some b) =
      ({ success := false
         message := "Error: " ++ ("Attempted path traversal: " ++ file_path) }, fs)
    ∧ read_file osErr fs cwd file_path (some b) =
      { content := "Error: " ++ ("Attempted path traversal: " ++ file_path) } := by
  have hv : get_validated_path fs cwd (some b) file_path =
      .error (.securityException ("Attempted path traversal: " ++ file_path)) := by
    simp only [get_validated_path, if_neg hb, ← hbase, hdir, if_true, ← hfull, if_neg hesc]
  constructor
  · simp only [write_file, hv, PyExc.text]
  · simp only [read_file, hv, PyExc.text]

/-- C1 witness: `write_file(file_path="../../etc/passwd",
base_path="/sandbox/project")` resolves to `/etc/passwd`, outside the base, is
rejected with the traversal error, and leaves the filesystem unchanged;
`read_file` on the same input is rejected identically. -/
theorem write_read_traversal_fails_closed_witness :
    write_file (fun _ => "") ⟨[["sandbox", "project"], ["sandbox"], []], []⟩ []
        "../../etc/passwd" "pwned" (some "/sandbox/project") =
      ({ success := false
         message := "Error: Attempted path traversal: ../../etc/passwd" },
       ⟨[["sandbox", "project"], ["sandbox"], []], []⟩)
    ∧ read_file (fun _ => "") ⟨[["sandbox", "project"], ["sandbox"], []], []⟩ []
        "../../etc/passwd" (some "/sandbox/project") =
      { content := "Error: Attempted path traversal: ../../etc/passwd" } :=
  write_read_traversal_fails_closed (fun _ => "")
    ⟨[["sandbox", "project"], ["sandbox"], []], []⟩ []
    "/sandbox/project" "../../etc/passwd" "pwned"
    ["sandbox", "project"] ["etc", "passwd"]
    (by decide) (by decide) (by decide) (by decide) (by decide)

/-- Does the dispatch call return an envelope (as opposed to raising)? -/
def returnsEnvelope {ρ : Type} : Except String (Envelope ρ) → Bool
  | .ok _ => true
  | .error _ => false

/-- C2 counterexample: dispatching the unknown tool name `does_not_exist`
does NOT return a failed envelope — `execute_tool` raises
`ToolExecutionError("Unknown tool: does_not_exist")`, which escapes the
dispatch boundary; likewise a parameter-validation failure raises
`ToolExecutionError("Parameter validation failed: ...")` instead of returning
an envelope with `success: false`. -/
theorem execute_tool_raises_counterexample :
    execute_tool (fun (p : Unit) _ => p) (fun _ _ => Except.ok ())
        "does_not_exist" () none =
      .error "Unknown tool: does_not_exist"
    ∧ returnsEnvelope (execute_tool (fun (p : Unit) _ => p) (fun _ _ => Except.ok ())
        "does_not_exist" () none) = false
    ∧ execute_tool (fun (p : Unit) _ => p)
        (fun _ _ => Except.error (PyErr.validationError "field required") :
          String → Unit → Except PyErr Unit)
        "read_file" () none =
      .error "Parameter validation failed: field required"
    ∧ returnsEnvelope (execute_tool (fun (p : Unit) _ => p)
        (fun _ _ => Except.error (PyErr.validationError "field required") :
          String → Unit → Except PyErr Unit)
        "read_file" () none) = false := by
  refine ⟨rfl, rfl, rfl, rfl⟩

/-- C2 amended: `execute_tool` signals both failure cases by raising
`ToolExecutionError` rather than by returning a failed envelope: an unknown
tool name raises `Unknown tool: <name>` without ever invoking any tool body
(hence no filesystem or network side effects — the outcome is identical for
every body), an escaping validation failure raises
`Parameter validation failed: <details>` with the validation detail embedded,
and every envelope that IS returned has `success: true` (a `success: false`
envelope is never produced). Callers translate the raised exception into error
events at the stream boundary. -/
theorem execute_tool_raises {π ρ : Type} (merge : π → String → π)
    (name : String) (p : π) (wd : Option String) :
    (∀ body body2 : String → π → Except PyErr ρ,
      toolNames.contains name = false →
      execute_tool merge body name p wd = .error ("Unknown tool: " ++ name)
      ∧ execute_tool merge body name p wd = execute_tool merge body2 name p wd)
    ∧ (∀ (body : String → π → Except PyErr ρ) (d : String),
      toolNames.contains name = true →
      body name (mergedParams merge p wd) = .error (.validationError d) →
      execute_tool merge body name p wd = .error ("Parameter validation failed: " ++ d))
    ∧ (∀ (body : String → π → Except PyErr ρ) (env : Envelope ρ),
      execute_tool merge body name p wd = .ok env → env.success = true) := by
  refine ⟨fun body body2 hunk => ?_, fun body d hknown hval => ?_, fun body env hok => ?_⟩
  · constructor <;> simp only [execute_tool, hunk, Bool.false_eq_true, if_false]
  · simp only [execute_tool, hknown, if_true, hval]
  · by_cases hknown : toolNames.contains name = true
    · simp only [execute_tool, hknown, if_true] at hok
      cases hbody : body name (mergedParams merge p wd) with
      | ok r => rw [hbody] at hok; cases hok; rfl
      | error e =>
        rw [hbody] at hok
        cases e <;> simp at hok
    · simp only [execute_tool, hknown, Bool.false_eq_true, if_false] at hok
      exact Except.noConfusion hok

/-- C2 amended, witness: the unknown-tool branch at `does_not_exist` (the
raised message and body-independence) and the validation branch at `read_file`
with detail `field required`, all discharged at concrete inputs. -/
theorem execute_tool_raises_witness :
    execute_tool (fun (p : Unit) _ => p) (fun _ _ => Except.ok ())
        "does_not_exist" () none =
      .error ("Unknown tool: " ++ "does_not_exist")
    ∧ execute_tool (fun (p : Unit) _ => p)
        (fun _ _ => Except.error (PyErr.validationError "field required") :
          String → Unit → Except PyErr Unit)
        "read_file" () none =
      .error ("Parameter validation failed: " ++ "field required") := by
  refine ⟨((execute_tool_raises (fun (p : Unit) _ => p) "does_not_exist" () none).1
    (fun _ _ => Except.ok ()) (fun _ _ => Except.ok ()) (by decide)).1, ?_⟩
  exact (execute_tool_raises (fun (p : Unit) _ => p) "read_file" () none).2.1
    (fun _ _ => Except.error (PyErr.validationError "field required")) "field required"
    (by decide) rfl

/-- C6: on the direct-tool-call bypass path the adapter is never consulted and
the emitted sequence is exactly `ToolStatus{executing}`, `ToolResult`,
`ToolStatus{completed}`, `Done` when the dispatcher returns, exactly
`ToolStatus{executing}`, translated `Error`, `Done` when it raises — `Done` is
unconditional — and no `TextDelta` (`AIChunk`) event ever appears on this
path. -/
theorem generate_stream_direct_tool_call_sequence (clock : Nat → Nat) (toolName : String) :
    (∀ env : Envelope Val,
      generate_stream_tool_call clock toolName (.ok env) =
        [.toolStatus toolName .executing (clock 0),
         .toolResult toolName env.result (clock 1),
         .toolStatus toolName .completed (clock 1),
         .done (clock 2)])
    ∧ (∀ e : String,
      generate_stream_tool_call clock toolName (.error e) =
        [.toolStatus toolName .executing (clock 0),
         .error ("Tool execution failed: " ++ e) (clock 1),
         .done (clock 2)])
    ∧ (∀ outcome : Except String (Envelope Val),
      (generate_stream_tool_call clock toolName outcome).all
        (fun ev => !ev.isText) = true) := by
  refine ⟨fun env => rfl, fun e => rfl, fun outcome => ?_⟩
  cases outcome <;>
    simp [generate_stream_tool_call, StreamEvent.isText, StreamEvent.isDone]

/-- Shared helper: under the traversal condition, `get_validated_path` raises
the `SecurityException`. -/
theorem get_validated_path_traversal (fs : FileSystem) (cwd : List String)
    (b file_path : String) (base full : List String)
    (hb : ¬ b = "")
    (hbase : base = resolveComps []
      (if (parsePath b).absolute then (parsePath b).comps else cwd ++ (parsePath b).comps))
    (hfull : full = resolveComps []
      (if (parsePath file_path).absolute then (parsePath file_path).comps
       else base ++ (parsePath file_path).comps))
    (hdir : fs.dirs.contains base = true)
    (hesc : ¬ base <+: full) :
    get_validated_path fs cwd (some b) file_path =
      .error (.securityException ("Attempted path traversal: " ++ file_path)) := by
  simp only [get_validated_path, if_neg hb, ← hbase, hdir, if_true, ← hfull, if_neg hesc]

/-- C10: `read_file` never raises — the dispatched `read_file` tool always
returns a `success: true` envelope whose result is the `{"content": ...}` dict
of `read_file`, for every filesystem, parameter set and context; a missing base
path is reported in-band; and a concrete failed read (a path-traversal
rejection) produces an envelope equal, bit for bit, to the envelope of a
successful read of a file whose content happens to be that error text. -/
theorem read_file_dispatch_always_success (osErr : List String → String)
    (fs : FileSystem) (cwd : List String) :
    (∀ (p : ReadFileParams) (merge : ReadFileParams → String → ReadFileParams)
       (wd : Option String),
      execute_tool merge (readFileBody osErr fs cwd) "read_file" p wd =
        .ok { success := true
              result := read_file osErr fs cwd (mergedParams merge p wd).absolute_path
                (mergedParams merge p wd).base_path
              tool_name := "read_file" })
    ∧ (∀ ap : String,
      read_file osErr fs cwd ap none =
        { content := "Error: A working directory must be specified." })
    ∧ execute_tool (fun p _ => p)
        (readFileBody (fun _ => "") ⟨[["sandbox", "project"], ["sandbox"], []], []⟩ [])
        "read_file" { absolute_path := "../../x", base_path := some "/sandbox/project" } none =
      execute_tool (fun p _ => p)
        (readFileBody (fun _ => "")
          ⟨[["sandbox", "project"], ["sandbox"], []],
           [(["sandbox", "project", "note.txt"], "Error: Attempted path traversal: ../../x")]⟩ [])
        "read_file" { absolute_path := "note.txt", base_path := some "/sandbox/project" } none := by
  refine ⟨fun p merge wd => ?_, fun ap => rfl, by rfl⟩
  simp only [execute_tool, readFileBody]
  rfl

/-- C8: `generate_multiple_documentation` returns exactly one result entry per
requested doc type, in request order; entry `i` is exactly the single-type
generation for the `i`-th requested type, tagged with that type's own value and
carrying its own success flag and message; and entry `i` is unchanged under any
change to the generation outcome of the other requested types (partial-failure
isolation): two generation oracles that agree on the `i`-th type — however much
they differ (e.g. one fails) on every other type — yield the same `i`-th
entry. -/
theorem generate_multiple_documentation_isolated
    (genDoc genDoc2 : DocType → Except String DocumentationResult)
    (writeDoc : String → String → Bool × String)
    (params : MultiDocumentationParams) (i : Nat) (hi : i < params.doc_types.length)
    (hag : genDoc2 (params.doc_types.get ⟨i, hi⟩) = genDoc (params.doc_types.get ⟨i, hi⟩)) :
    (generate_multiple_documentation genDoc writeDoc params).length =
      params.doc_types.length
    ∧ (generate_multiple_documentation genDoc writeDoc params).get
        ⟨i, by simpa [generate_multiple_documentation] using hi⟩ =
      generate_and_write_doc genDoc writeDoc (params.doc_types.get ⟨i, hi⟩)
    ∧ ((generate_multiple_documentation genDoc writeDoc params).get
        ⟨i, by simpa [generate_multiple_documentation] using hi⟩).doc_type =
      (params.doc_types.get ⟨i, hi⟩).value
    ∧ (generate_multiple_documentation genDoc2 writeDoc params).get
        ⟨i, by simpa [generate_multiple_documentation] using hi⟩ =
      (generate_multiple_documentation genDoc writeDoc params).get
        ⟨i, by simpa [generate_multiple_documentation] using hi⟩ := by
  have hget : ∀ (g : DocType → Except String DocumentationResult),
      (generate_multiple_documentation g writeDoc params).get
        ⟨i, by simpa [generate_multiple_documentation] using hi⟩ =
      generate_and_write_doc g writeDoc (params.doc_types.get ⟨i, hi⟩) := by
    intro g
    simp [generate_multiple_documentation]
  have hdt : ∀ (g : DocType → Except String DocumentationResult) (d : DocType),
      (generate_and_write_doc g writeDoc d).doc_type = d.value := by
    intro g d
    cases h : g d <;> simp [generate_and_write_doc, h]
  refine ⟨by simp [generate_multiple_documentation], hget genDoc, ?_, ?_⟩
  · rw [hget genDoc]
    exact hdt genDoc _
  · rw [hget genDoc, hget genDoc2, generate_and_write_doc, generate_and_write_doc, hag]

/-- C8 witness: with `doc_types = [README, API_DOCS]`, an oracle that succeeds
on `README` and one that additionally fails on `API_DOCS` produce the same
first entry, tagged `README`, and the result has exactly two entries. -/
theorem generate_multiple_documentation_isolated_witness :
    ((generate_multiple_documentation
        (fun _ => .ok { content := "ok", doc_type := "x", sections := [], word_count := 1 })
        (fun _ _ => (true, "written"))
        { doc_types := [.README, .API_DOCS], project_context := "ctx"
          code_structure := none }).length = 2)
    ∧ ((generate_multiple_documentation
        (fun d => match d with
          | .README => .ok { content := "ok", doc_type := "x", sections := [], word_count := 1 }
          | _ => .error "provider down")
        (fun _ _ => (true, "written"))
        { doc_types := [.README, .API_DOCS], project_context := "ctx"
          code_structure := none }).get ⟨0, by decide⟩ =
      (generate_multiple_documentation
        (fun _ => .ok { content := "ok", doc_type := "x", sections := [], word_count := 1 })
        (fun _ _ => (true, "written"))
        { doc_types := [.README, .API_DOCS], project_context := "ctx"
          code_structure := none }).get ⟨0, by decide⟩) := by
  refine ⟨(generate_multiple_documentation_isolated
      (fun _ => .ok { content := "ok", doc_type := "x", sections := [], word_count := 1 })
      (fun d => match d with
        | .README => .ok { content := "ok", doc_type := "x", sections := [], word_count := 1 }
        | _ => .error "provider down")
      (fun _ _ => (true, "written"))
      { doc_types := [.README, .API_DOCS], project_context := "ctx", code_structure := none }
      0 (by decide) rfl).1, ?_⟩
  exact (generate_multiple_documentation_isolated
      (fun _ => .ok { content := "ok", doc_type := "x", sections := [], word_count := 1 })
      (fun d => match d with
        | .README => .ok { content := "ok", doc_type := "x", sections := [], word_count := 1 }
        | _ => .error "provider down")
      (fun _ _ => (true, "written"))
      { doc_types := [.README, .API_DOCS], project_context := "ctx", code_structure := none }
      0 (by decide) rfl).2.2.2

/-! ### OpenAI adapter scenarios -/

/-- An upstream chunk carrying only a text fragment. -/
def textChunk (t : String) : OpenAIChunk :=
  { delta := some { content := some t, tool_calls := [] }, finish_reason := none }

/-- An upstream chunk introducing a tool call through its name fragment. -/
def nameChunk (cid : Option String) (f : String) : OpenAIChunk :=
  { delta := some { content := none, tool_calls := [{ id := cid, name := some f, arguments := none }] }
    finish_reason := none }

/-- An upstream chunk carrying one tool-call argument fragment. -/
def argChunk (a : String) : OpenAIChunk :=
  { delta := some { content := none, tool_calls := [{ id := none, name := none, arguments := some a }] }
    finish_reason := none }

/-- The chunk whose finish-reason is the tool-call sentinel. -/
def finishChunk : OpenAIChunk :=
  { delta := some { content := none, tool_calls := [] }, finish_reason := some "tool_calls" }

/-- Concatenation of argument fragments, in arrival order. -/
def strConcat : List String → String
  | [] => ""
  | a :: as => a ++ strConcat as

/-- The `TextDelta` events produced for a list of fragments starting at clock
reading `k`. -/
def textEvents (clock : Nat → Nat) (k : Nat) : List String → List StreamEvent
  | [] => []
  | t :: ts => .aiChunk t (clock k) :: textEvents clock (k + 1) ts

/-- The events emitted for one completed dispatch outcome starting at clock
reading `k`. -/
def dispatchEvents (clock : Nat → Nat) (k : Nat) (name : String) :
    DispatchOutcome → List StreamEvent
  | .envelope true r => [.toolResult name r (clock k), .toolStatus name .completed (clock (k + 1))]
  | .envelope false _ => [.toolStatus name .failed (clock k)]
  | .raised m => [.error ("Tool execution failed: " ++ m) (clock k)]

/-- Number of clock readings consumed by one completed dispatch outcome. -/
def dispatchKInc : DispatchOutcome → Nat
  | .envelope true _ => 2
  | .envelope false _ => 1
  | .raised _ => 1

theorem finishToolCall_parse_ok (clock : Nat → Nat) (jl : String → Except String Val)
    (dp : String → Val → DispatchOutcome) (s : OAState) (c : PendingToolCall) (args : Val)
    (h : jl c.arguments = .ok args) :
    finishToolCall clock jl dp s c =
      { current := none
        k := s.k + dispatchKInc (dp c.name args)
        events := s.events ++ dispatchEvents clock s.k c.name (dp c.name args)
        calls := s.calls ++ [(c.name, args)] } := by
  cases hdp : dp c.name args with
  | envelope b r =>
    cases b <;> simp [finishToolCall, h, hdp, dispatchEvents, dispatchKInc]
  | raised m => simp [finishToolCall, h, hdp, dispatchEvents, dispatchKInc]

theorem foldl_textChunks (clock : Nat → Nat) (jl : String → Except String Val)
    (dp : String → Val → DispatchOutcome) (ts : List String) :
    ∀ s : OAState, (∀ t ∈ ts, ¬ t = "") →
    List.foldl (openaiStepChunk clock jl dp) s (ts.map textChunk) =
      { current := s.current, k := s.k + ts.length
        events := s.events ++ textEvents clock s.k ts, calls := s.calls } := by
  induction ts with
  | nil => intro s _; simp [textEvents]
  | cons t ts ih =>
    intro s hne
    have ht : ¬ t = "" := hne t (by simp)
    have step : openaiStepChunk clock jl dp s (textChunk t) =
        { current := s.current, k := s.k + 1
          events := s.events ++ [.aiChunk t (clock s.k)], calls := s.calls } := by
      simp [openaiStepChunk, textChunk, ht]
    rw [List.map_cons, List.foldl_cons, step,
      ih _ (fun a ha => hne a (by simp [ha]))]
    simp [textEvents, Nat.add_assoc, Nat.add_comm 1 ts.length]

theorem foldl_argChunks (clock : Nat → Nat) (jl : String → Except String Val)
    (dp : String → Val → DispatchOutcome) (frags : List String) :
    ∀ (s : OAState) (c : PendingToolCall), s.current = some c →
    (∀ a ∈ frags, ¬ a = "") →
    List.foldl (openaiStepChunk clock jl dp) s (frags.map argChunk) =
      { s with current := some { c with arguments := c.arguments ++ strConcat frags } } := by
  induction frags with
  | nil =>
    intro s c hc _
    simp [strConcat, String.append_empty, ← hc]
  | cons a frags ih =>
    intro s c hc hne
    have ha : ¬ a = "" := hne a (by simp)
    have step : openaiStepChunk clock jl dp s (argChunk a) =
        { s with current := some { c with arguments := c.arguments ++ a } } := by
      simp [openaiStepChunk, openaiStepToolCall, argChunk, ha, hc]
    rw [List.map_cons, List.foldl_cons, step,
      ih _ { c with arguments := c.arguments ++ a } rfl (fun x hx => hne x (by simp [hx]))]
    simp [strConcat, String.append_assoc]

/-- C3: in the OpenAI adapter, an upstream sequence of one tool-call-name
fragment, then argument fragments, then the `tool_calls` finish-reason
sentinel produces: exactly one `ToolStatus{executing}` (emitted at the name
fragment — the subsequent dispatch-translation events and the final `Done`
contain no further executing status), no events for the argument fragments,
and exactly one dispatcher call whose parameters are the JSON parse of the
character-for-character concatenation of the argument fragments. -/
theorem openai_fragment_reassembly (clock : Nat → Nat) (jl : String → Except String Val)
    (dp : String → Val → DispatchOutcome) (cid : Option String) (f : String)
    (frags : List String) (p : Val)
    (hf : ¬ f = "") (hfr : ∀ a ∈ frags, ¬ a = "") (hne : ¬ strConcat frags = "")
    (hp : jl (strConcat frags) = .ok p) :
    openaiStream clock jl dp (nameChunk cid f :: frags.map argChunk ++ [finishChunk]) none =
      (.toolStatus f .executing (clock 0) ::
         dispatchEvents clock 1 f (dp f p) ++ [.done (clock (1 + dispatchKInc (dp f p)))],
       [(f, p)])
    ∧ (dispatchEvents clock 1 f (dp f p)).all (fun e => !e.isExecuting) = true := by
  have stepName : openaiStepChunk clock jl dp OAState.init (nameChunk cid f) =
      { current := some { id := cid, name := f, arguments := "" }, k := 1
        events := [.toolStatus f .executing (clock 0)], calls := [] } := by
    simp [openaiStepChunk, openaiStepToolCall, nameChunk, OAState.init, hf]
  constructor
  · have hfold := foldl_argChunks clock jl dp frags
      { current := some { id := cid, name := f, arguments := "" }, k := 1
        events := [.toolStatus f .executing (clock 0)], calls := [] }
      { id := cid, name := f, arguments := "" } rfl hfr
    rw [String.empty_append] at hfold
    have hstepFin : openaiStepChunk clock jl dp
        { current := some { id := cid, name := f, arguments := strConcat frags }, k := 1
          events := [.toolStatus f .executing (clock 0)], calls := [] } finishChunk =
        finishToolCall clock jl dp
          { current := some { id := cid, name := f, arguments := strConcat frags }, k := 1
            events := [.toolStatus f .executing (clock 0)], calls := [] }
          { id := cid, name := f, arguments := strConcat frags } := by
      simp [openaiStepChunk, finishChunk, hne]
    rw [finishToolCall_parse_ok clock jl dp _ _ p hp] at hstepFin
    simp only [openaiStream, List.foldl_cons, stepName, List.foldl_append, hfold,
      List.foldl_nil, hstepFin]
    simp
  · cases hdp : dp f p with
    | envelope b r => cases b <;> simp [dispatchEvents, StreamEvent.isExecuting]
    | raised m => simp [dispatchEvents, StreamEvent.isExecuting]

theorem finishToolCall_parse_err (clock : Nat → Nat) (jl : String → Except String Val)
    (dp : String → Val → DispatchOutcome) (s : OAState) (c : PendingToolCall) (em : String)
    (h : jl c.arguments = .error em) :
    finishToolCall clock jl dp s c =
      { current := none, k := s.k + 1
        events := s.events ++ [.error ("Tool execution failed: " ++ em) (clock s.k)]
        calls := s.calls } := by
  simp [finishToolCall, h]

theorem textEvents_all_text (clock : Nat → Nat) (ts : List String) :
    ∀ k, (textEvents clock k ts).all (fun e => e.isText) = true := by
  induction ts with
  | nil => intro k; simp [textEvents]
  | cons t rest ih =>
    intro k
    rw [textEvents, List.all_cons, ih (k + 1)]
    rfl

/-- C5: in the OpenAI adapter, when the accumulated argument text fails to
parse at the finish-reason sentinel the adapter does not crash: it emits
exactly one `Error` event, never dispatches (no retry — the dispatcher call
trace is empty), clears the pending slot to empty, and the stream continues
normally (subsequent text deltas still arrive) and still ends with `Done`. -/
theorem openai_malformed_args_recovers (clock : Nat → Nat) (jl : String → Except String Val)
    (dp : String → Val → DispatchOutcome) (cid : Option String) (f s em : String)
    (ts : List String)
    (hf : ¬ f = "") (hs : ¬ s = "") (hts : ∀ t ∈ ts, ¬ t = "")
    (hp : jl s = .error em) :
    openaiStream clock jl dp
        (nameChunk cid f :: argChunk s :: finishChunk :: ts.map textChunk) none =
      (.toolStatus f .executing (clock 0) ::
         .error ("Tool execution failed: " ++ em) (clock 1) ::
         (textEvents clock 2 ts ++ [.done (clock (2 + ts.length))]),
       [])
    ∧ (List.foldl (openaiStepChunk clock jl dp) OAState.init
        (nameChunk cid f :: argChunk s :: finishChunk :: ts.map textChunk)).current = none
    ∧ (textEvents clock 2 ts).all (fun e => e.isText) = true := by
  have stepName : openaiStepChunk clock jl dp OAState.init (nameChunk cid f) =
      { current := some { id := cid, name := f, arguments := "" }, k := 1
        events := [.toolStatus f .executing (clock 0)], calls := [] } := by
    simp [openaiStepChunk, openaiStepToolCall, nameChunk, OAState.init, hf]
  have stepArg : openaiStepChunk clock jl dp
      { current := some { id := cid, name := f, arguments := "" }, k := 1
        events := [.toolStatus f .executing (clock 0)], calls := [] } (argChunk s) =
      { current := some { id := cid, name := f, arguments := s }, k := 1
        events := [.toolStatus f .executing (clock 0)], calls := [] } := by
    simp [openaiStepChunk, openaiStepToolCall, argChunk, hs, String.empty_append]
  have stepFin : openaiStepChunk clock jl dp
      { current := some { id := cid, name := f, arguments := s }, k := 1
        events := [.toolStatus f .executing (clock 0)], calls := [] } finishChunk =
      { current := none, k := 2
        events := [.toolStatus f .executing (clock 0),
                   .error ("Tool execution failed: " ++ em) (clock 1)]
        calls := [] } := by
    rw [show openaiStepChunk clock jl dp
        { current := some { id := cid, name := f, arguments := s }, k := 1
          events := [.toolStatus f .executing (clock 0)], calls := [] } finishChunk =
        finishToolCall clock jl dp
          { current := some { id := cid, name := f, arguments := s }, k := 1
            events := [.toolStatus f .executing (clock 0)], calls := [] }
          { id := cid, name := f, arguments := s } from by
      simp [openaiStepChunk, finishChunk, hs]]
    rw [finishToolCall_parse_err clock jl dp _ _ em hp]
    rfl
  have hfold := foldl_textChunks clock jl dp ts
    { current := none, k := 2
      events := [.toolStatus f .executing (clock 0),
                 .error ("Tool execution failed: " ++ em) (clock 1)]
      calls := [] } hts
  refine ⟨?_, ?_, textEvents_all_text clock ts 2⟩
  · simp only [openaiStream, List.foldl_cons, stepName, stepArg, stepFin, hfold]
    simp
  · simp only [List.foldl_cons, stepName, stepArg, stepFin, hfold]

/-- Concrete `json.loads` used by the witnesses: accepts exactly the example
object and reports the parse-failure message otherwise. -/
def jl0 : String → Except String Val :=
  fun s =>
    if s = "\x7b\"a\":1,\"b\":2\x7d" then
      .ok (.vObj [("a", .vNum 1), ("b", .vNum 2)])
    else .error "Expecting value: line 1 column 1 (char 0)"

/-- Concrete dispatcher used by the witnesses: every call succeeds. -/
def dp0 : String → Val → DispatchOutcome :=
  fun _ _ => .envelope true (.vStr "ok")

/-- C3 witness: the spec example — name fragment `f`, argument fragments
splitting the object in two, then the sentinel — yields exactly one executing
status, the dispatch translation, one `Done`, and exactly one dispatcher call
with the parse of the exact concatenation. -/
theorem openai_fragment_reassembly_witness :
    openaiStream id jl0 dp0
        (nameChunk none "f" :: ["\x7b\"a\":1", ",\"b\":2\x7d"].map argChunk ++ [finishChunk])
        none =
      ([.toolStatus "f" .executing 0,
        .toolResult "f" (.vStr "ok") 1, .toolStatus "f" .completed 2,
        .done 3],
       [("f", .vObj [("a", .vNum 1), ("b", .vNum 2)])]) := by
  have h := (openai_fragment_reassembly id jl0 dp0 none "f" ["\x7b\"a\":1", ",\"b\":2\x7d"]
    (.vObj [("a", .vNum 1), ("b", .vNum 2)])
    (by decide) (by decide) (by decide) (by rfl)).1
  simpa [dispatchEvents, dp0, dispatchKInc, strConcat] using h

/-- C5 witness: a pending call whose accumulated text is not JSON produces the
single error event, no dispatcher call, and the stream continues with the
following text delta and ends with `Done`. -/
theorem openai_malformed_args_recovers_witness :
    openaiStream id jl0 dp0
        (nameChunk none "f" :: argChunk "\x7bnot json" :: finishChunk ::
          ["hello"].map textChunk) none =
      ([.toolStatus "f" .executing 0,
        .error "Tool execution failed: Expecting value: line 1 column 1 (char 0)" 1,
        .aiChunk "hello" 2, .done 3],
       []) := by
  have h := (openai_malformed_args_recovers id jl0 dp0 none "f" "\x7bnot json"
    "Expecting value: line 1 column 1 (char 0)" ["hello"]
    (by decide) (by decide) (by decide) (by rfl)).1
  simpa [textEvents] using h

/-! ### Text-only streams for the three adapters -/

/-- A structured-chat line carrying only message content. -/
def contentLine (t : String) : OllamaLine :=
  .data (some { content := some t, tool_calls := none }) false

/-- A structured-chat line carrying only `done: true`. -/
def doneLine : OllamaLine := .data none true

theorem textEvents_length (clock : Nat → Nat) (ts : List String) :
    ∀ k, (textEvents clock k ts).length = ts.length := by
  induction ts with
  | nil => intro k; rfl
  | cons t rest ih => intro k; simp [textEvents, ih (k + 1)]

theorem claudeGo_textDeltas (clock : Nat → Nat) (dp : String → Val → DispatchOutcome)
    (ts : List String) :
    ∀ s : CLState,
      claudeGo clock dp s (ts.map ClaudeChunk.textDelta ++ [ClaudeChunk.messageStop]) =
        ({ current := s.current, k := s.k + ts.length
           events := s.events ++ textEvents clock s.k ts }, true) := by
  induction ts with
  | nil => intro s; simp [claudeGo, textEvents]
  | cons t rest ih =>
    intro s
    rw [List.map_cons, List.cons_append]
    show claudeGo clock dp (claudeStepChunk clock dp s (.textDelta t)) _ = _
    rw [show claudeStepChunk clock dp s (.textDelta t) =
        { current := s.current, k := s.k + 1
          events := s.events ++ [.aiChunk t (clock s.k)] } from rfl]
    rw [ih]
    simp [textEvents, Nat.add_assoc, Nat.add_comm 1 rest.length]

theorem ollamaGo_textLines (clock : Nat → Nat) (jl : String → Except String Val)
    (dp : String → Val → DispatchOutcome) (ts : List String)
    (hts : ∀ t ∈ ts, ¬ t = "") :
    ∀ s : OLState,
      ollamaGo clock jl dp s (ts.map contentLine ++ [doneLine]) =
        ({ k := s.k + ts.length + 1
           events := s.events ++ textEvents clock s.k ts ++
             [StreamEvent.done (clock (s.k + ts.length))] }, true) := by
  induction ts with
  | nil => intro s; simp [ollamaGo, ollamaStepLine, doneLine, textEvents]
  | cons t rest ih =>
    intro s
    have ht : ¬ t = "" := hts t (by simp)
    rw [List.map_cons, List.cons_append]
    simp only [ollamaGo]
    rw [show ollamaStepLine clock jl dp s (contentLine t) =
        ({ k := s.k + 1, events := s.events ++ [.aiChunk t (clock s.k)] }, false) from by
      simp [ollamaStepLine, contentLine, ht]]
    rw [if_neg (by simp)]
    rw [ih (fun a ha => hts a (by simp [ha]))]
    simp [textEvents, Nat.add_assoc, Nat.add_comm 1 rest.length]

theorem chain_textEvents_done (clock : Nat → Nat) (hm : Monotone clock) (ts : List String) :
    ∀ k, List.Chain' (· ≤ ·)
      ((textEvents clock k ts ++
        [StreamEvent.done (clock (k + ts.length))]).map StreamEvent.ts) := by
  induction ts with
  | nil => intro k; simp [textEvents]
  | cons t rest ih =>
    intro k
    have harith : k + (t :: rest).length = (k + 1) + rest.length := by
      simp [Nat.add_comm, Nat.add_assoc, Nat.add_left_comm]
    rw [harith, textEvents, List.cons_append, List.map_cons, List.chain'_cons']
    refine ⟨?_, ih (k + 1)⟩
    intro y hy
    cases rest with
    | nil =>
      simp only [textEvents, List.nil_append, List.map_cons, List.map_nil,
        List.head?_cons, Option.mem_def, Option.some.injEq] at hy
      subst hy
      exact hm (Nat.le_succ k)
    | cons r rs =>
      simp only [textEvents, List.cons_append, List.map_cons, List.head?_cons,
        Option.mem_def, Option.some.injEq] at hy
      subst hy
      exact hm (Nat.le_succ k)

/-- C7: for each of the three adapters, an upstream stream with no tool calls
and exactly N text fragments produces exactly N `TextDelta` events followed by
exactly one `Done`, in that order (the N events are all text deltas, one per
fragment, and nothing else precedes the single final `Done`), and the
timestamps of the emitted events are non-decreasing whenever the wall clock is
monotone. -/
theorem adapters_text_only (clock : Nat → Nat) (jl : String → Except String Val)
    (dp : String → Val → DispatchOutcome) (hm : Monotone clock) (ts : List String)
    (hts : ∀ t ∈ ts, ¬ t = "") :
    openaiStream clock jl dp (ts.map textChunk) none =
      (textEvents clock 0 ts ++ [StreamEvent.done (clock ts.length)], [])
    ∧ claudeStream clock dp (ts.map ClaudeChunk.textDelta ++ [ClaudeChunk.messageStop]) none =
      textEvents clock 0 ts ++ [StreamEvent.done (clock ts.length)]
    ∧ ollamaChatStream clock jl dp (ts.map contentLine ++ [doneLine]) none =
      textEvents clock 0 ts ++ [StreamEvent.done (clock ts.length)]
    ∧ (textEvents clock 0 ts).length = ts.length
    ∧ (textEvents clock 0 ts).all (fun e => e.isText) = true
    ∧ List.Chain' (· ≤ ·)
        ((textEvents clock 0 ts ++ [StreamEvent.done (clock ts.length)]).map StreamEvent.ts) := by
  refine ⟨?_, ?_, ?_, textEvents_length clock ts 0, textEvents_all_text clock ts 0, ?_⟩
  · rw [openaiStream, foldl_textChunks clock jl dp ts OAState.init hts]
    simp [OAState.init]
  · rw [claudeStream, claudeGo_textDeltas clock dp ts CLState.init]
    simp [CLState.init]
  · rw [ollamaChatStream, ollamaGo_textLines clock jl dp ts hts OLState.init]
    simp [OLState.init]
  · have h := chain_textEvents_done clock hm ts 0
    simpa using h

/-- C7 witness: two fragments `a`, `b` with the identity clock give, on every
adapter, exactly the two text deltas then one `Done`, with non-decreasing
timestamps 0, 1, 2. -/
theorem adapters_text_only_witness :
    openaiStream id jl0 dp0 (["a", "b"].map textChunk) none =
      ([StreamEvent.aiChunk "a" 0, .aiChunk "b" 1, .done 2], [])
    ∧ claudeStream id dp0 (["a", "b"].map ClaudeChunk.textDelta ++ [ClaudeChunk.messageStop]) none =
      [StreamEvent.aiChunk "a" 0, .aiChunk "b" 1, .done 2]
    ∧ ollamaChatStream id jl0 dp0 (["a", "b"].map contentLine ++ [doneLine]) none =
      [StreamEvent.aiChunk "a" 0, .aiChunk "b" 1, .done 2]
    ∧ List.Chain' (· ≤ ·)
        ([StreamEvent.aiChunk "a" 0, .aiChunk "b" 1, .done 2].map StreamEvent.ts) := by
  have h := adapters_text_only id jl0 dp0 monotone_id ["a", "b"] (by decide)
  obtain ⟨h1, h2, h3, _, _, h6⟩ := h
  exact ⟨by simpa [textEvents] using h1, by simpa [textEvents] using h2,
    by simpa [textEvents] using h3, by simpa [textEvents] using h6⟩

/-! ### Terminal-event structure of the three adapters -/

/-- No event of the list is a `DoneChunk`. -/
def noDoneList (l : List StreamEvent) : Prop := ∀ e ∈ l, e.isDone = false

theorem noDoneList_nil : noDoneList [] := by intro e he; cases he

theorem noDoneList_append {a b : List StreamEvent} (ha : noDoneList a) (hb : noDoneList b) :
    noDoneList (a ++ b) := by
  intro e he
  rcases List.mem_append.mp he with h | h
  · exact ha e h
  · exact hb e h

theorem dispatchEvents_noDone (clock : Nat → Nat) (k : Nat) (name : String)
    (o : DispatchOutcome) : noDoneList (dispatchEvents clock k name o) := by
  cases o with
  | envelope b r => cases b <;> simp [dispatchEvents, noDoneList, StreamEvent.isDone]
  | raised m => simp [dispatchEvents, noDoneList, StreamEvent.isDone]

theorem openaiStepToolCall_events (clock : Nat → Nat) (s : OAState) (tc : ToolCallDelta) :
    ∃ new, (openaiStepToolCall clock s tc).events = s.events ++ new ∧ noDoneList new := by
  unfold openaiStepToolCall
  have h1 : ∃ new,
      (match tc.name with
        | some n =>
          if n = "" then s
          else { s with current := some { id := tc.id, name := n, arguments := "" }
                        events := s.events ++
                          [StreamEvent.toolStatus n ToolStatus.executing (clock s.k)]
                        k := s.k + 1 }
        | none => s).events = s.events ++ new ∧ noDoneList new := by
    cases tc.name with
    | none => exact ⟨[], by simp, noDoneList_nil⟩
    | some n =>
      by_cases hn : n = ""
      · exact ⟨[], by simp [hn], noDoneList_nil⟩
      · exact ⟨[.toolStatus n .executing (clock s.k)], by simp [hn],
          by simp [noDoneList, StreamEvent.isDone]⟩
  obtain ⟨new, hnew, hnd⟩ := h1
  refine ⟨new, ?_, hnd⟩
  cases tc.arguments with
  | none => simpa using hnew
  | some a =>
    by_cases ha : a = ""
    · simp only [ha, if_true, reduceIte]
      simpa using hnew
    · simp only [ha, if_false, reduceIte]
      split <;> simpa using hnew

theorem foldl_openaiStepToolCall_events (clock : Nat → Nat) (tcs : List ToolCallDelta) :
    ∀ s : OAState, ∃ new,
      (List.foldl (openaiStepToolCall clock) s tcs).events = s.events ++ new
      ∧ noDoneList new := by
  induction tcs with
  | nil => intro s; exact ⟨[], by simp, noDoneList_nil⟩
  | cons tc rest ih =>
    intro s
    obtain ⟨n1, h1, hd1⟩ := openaiStepToolCall_events clock s tc
    obtain ⟨n2, h2, hd2⟩ := ih (openaiStepToolCall clock s tc)
    exact ⟨n1 ++ n2, by simp [List.foldl_cons, h2, h1], noDoneList_append hd1 hd2⟩

theorem finishToolCall_events (clock : Nat → Nat) (jl : String → Except String Val)
    (dp : String → Val → DispatchOutcome) (s : OAState) (c : PendingToolCall) :
    ∃ new, (finishToolCall clock jl dp s c).events = s.events ++ new ∧ noDoneList new := by
  cases hjl : jl c.arguments with
  | ok args =>
    rw [finishToolCall_parse_ok clock jl dp s c args hjl]
    exact ⟨dispatchEvents clock s.k c.name (dp c.name args), rfl,
      dispatchEvents_noDone clock s.k c.name (dp c.name args)⟩
  | error em =>
    rw [finishToolCall_parse_err clock jl dp s c em hjl]
    exact ⟨[.error ("Tool execution failed: " ++ em) (clock s.k)], rfl,
      by simp [noDoneList, StreamEvent.isDone]⟩

theorem openaiStepChunk_events (clock : Nat → Nat) (jl : String → Except String Val)
    (dp : String → Val → DispatchOutcome) (s : OAState) (ch : OpenAIChunk) :
    ∃ new, (openaiStepChunk clock jl dp s ch).events = s.events ++ new
    ∧ noDoneList new := by
  unfold openaiStepChunk
  cases ch.delta with
  | none => exact ⟨[], by simp, noDoneList_nil⟩
  | some d =>
    have h1 : ∃ new,
        (match d.content with
          | some c =>
            if c = "" then s
            else { s with events := s.events ++ [StreamEvent.aiChunk c (clock s.k)]
                          k := s.k + 1 }
          | none => s).events = s.events ++ new ∧ noDoneList new := by
      cases d.content with
      | none => exact ⟨[], by simp, noDoneList_nil⟩
      | some c =>
        by_cases hc : c = ""
        · exact ⟨[], by simp [hc], noDoneList_nil⟩
        · exact ⟨[.aiChunk c (clock s.k)], by simp [hc],
            by simp [noDoneList, StreamEvent.isDone]⟩
    obtain ⟨n1, h1e, hd1⟩ := h1
    obtain ⟨n2, h2e, hd2⟩ := foldl_openaiStepToolCall_events clock d.tool_calls
      (match d.content with
        | some c =>
          if c = "" then s
          else { s with events := s.events ++ [.aiChunk c (clock s.k)], k := s.k + 1 }
        | none => s)
    rw [h1e] at h2e
    by_cases hfin : ch.finish_reason = some "tool_calls"
    · simp only [hfin, if_true, reduceIte]
      split
      · next c heq =>
        by_cases hargs : c.arguments = ""
        · rw [if_pos hargs, h2e]
          exact ⟨n1 ++ n2, by simp, noDoneList_append hd1 hd2⟩
        · rw [if_neg hargs]
          obtain ⟨n3, h3e, hd3⟩ := finishToolCall_events clock jl dp _ c
          rw [h3e, h2e]
          exact ⟨(n1 ++ n2) ++ n3, by simp,
            noDoneList_append (noDoneList_append hd1 hd2) hd3⟩
      · next heq =>
        rw [h2e]
        exact ⟨n1 ++ n2, by simp, noDoneList_append hd1 hd2⟩
    · simp only [hfin, if_false, reduceIte]
      rw [h2e]
      exact ⟨n1 ++ n2, by simp, noDoneList_append hd1 hd2⟩

theorem foldl_openaiStepChunk_events (clock : Nat → Nat) (jl : String → Except String Val)
    (dp : String → Val → DispatchOutcome) (chunks : List OpenAIChunk) :
    ∀ s : OAState, ∃ new,
      (List.foldl (openaiStepChunk clock jl dp) s chunks).events = s.events ++ new
      ∧ noDoneList new := by
  induction chunks with
  | nil => intro s; exact ⟨[], by simp, noDoneList_nil⟩
  | cons ch rest ih =>
    intro s
    obtain ⟨n1, h1, hd1⟩ := openaiStepChunk_events clock jl dp s ch
    obtain ⟨n2, h2, hd2⟩ := ih (openaiStepChunk clock jl dp s ch)
    exact ⟨n1 ++ n2, by simp [List.foldl_cons, h2, h1], noDoneList_append hd1 hd2⟩

theorem claudeStepChunk_events (clock : Nat → Nat) (dp : String → Val → DispatchOutcome)
    (s : CLState) (c : ClaudeChunk) :
    ∃ new, (claudeStepChunk clock dp s c).events = s.events ++ new ∧ noDoneList new := by
  cases c with
  | blockStartToolUse i n =>
    exact ⟨[.toolStatus n .executing (clock s.k)], rfl,
      by simp [noDoneList, StreamEvent.isDone]⟩
  | textDelta t =>
    exact ⟨[.aiChunk t (clock s.k)], rfl, by simp [noDoneList, StreamEvent.isDone]⟩
  | blockStopToolUse n input =>
    cases hdp : dp n input with
    | envelope b r =>
      cases b
      · exact ⟨[.toolStatus n .failed (clock s.k)], by simp [claudeStepChunk, hdp],
          by simp [noDoneList, StreamEvent.isDone]⟩
      · exact ⟨[.toolResult n r (clock s.k), .toolStatus n .completed (clock (s.k + 1))],
          by simp [claudeStepChunk, hdp], by simp [noDoneList, StreamEvent.isDone]⟩
    | raised m =>
      exact ⟨[.error ("Tool execution failed: " ++ m) (clock s.k)],
        by simp [claudeStepChunk, hdp], by simp [noDoneList, StreamEvent.isDone]⟩
  | blockStartOther => exact ⟨[], by simp [claudeStepChunk], noDoneList_nil⟩
  | otherDelta => exact ⟨[], by simp [claudeStepChunk], noDoneList_nil⟩
  | blockStopOther => exact ⟨[], by simp [claudeStepChunk], noDoneList_nil⟩
  | messageStop => exact ⟨[], by simp [claudeStepChunk], noDoneList_nil⟩
  | otherEvent => exact ⟨[], by simp [claudeStepChunk], noDoneList_nil⟩

theorem claudeGo_events (clock : Nat → Nat) (dp : String → Val → DispatchOutcome)
    (chunks : List ClaudeChunk) :
    ∀ s : CLState, ∃ new,
      (claudeGo clock dp s chunks).1.events = s.events ++ new ∧ noDoneList new := by
  induction chunks with
  | nil => intro s; exact ⟨[], by simp [claudeGo], noDoneList_nil⟩
  | cons c rest ih =>
    intro s
    cases c with
    | messageStop => exact ⟨[], by simp [claudeGo], noDoneList_nil⟩
    | blockStartToolUse i n =>
      obtain ⟨n1, h1, hd1⟩ := claudeStepChunk_events clock dp s (.blockStartToolUse i n)
      obtain ⟨n2, h2, hd2⟩ := ih (claudeStepChunk clock dp s (.blockStartToolUse i n))
      exact ⟨n1 ++ n2, by simp [claudeGo, h2, h1], noDoneList_append hd1 hd2⟩
    | blockStartOther =>
      obtain ⟨n1, h1, hd1⟩ := claudeStepChunk_events clock dp s .blockStartOther
      obtain ⟨n2, h2, hd2⟩ := ih (claudeStepChunk clock dp s .blockStartOther)
      exact ⟨n1 ++ n2, by simp [claudeGo, h2, h1], noDoneList_append hd1 hd2⟩
    | textDelta t =>
      obtain ⟨n1, h1, hd1⟩ := claudeStepChunk_events clock dp s (.textDelta t)
      obtain ⟨n2, h2, hd2⟩ := ih (claudeStepChunk clock dp s (.textDelta t))
      exact ⟨n1 ++ n2, by simp [claudeGo, h2, h1], noDoneList_append hd1 hd2⟩
    | otherDelta =>
      obtain ⟨n1, h1, hd1⟩ := claudeStepChunk_events clock dp s .otherDelta
      obtain ⟨n2, h2, hd2⟩ := ih (claudeStepChunk clock dp s .otherDelta)
      exact ⟨n1 ++ n2, by simp [claudeGo, h2, h1], noDoneList_append hd1 hd2⟩
    | blockStopToolUse n input =>
      obtain ⟨n1, h1, hd1⟩ := claudeStepChunk_events clock dp s (.blockStopToolUse n input)
      obtain ⟨n2, h2, hd2⟩ := ih (claudeStepChunk clock dp s (.blockStopToolUse n input))
      exact ⟨n1 ++ n2, by simp [claudeGo, h2, h1], noDoneList_append hd1 hd2⟩
    | blockStopOther =>
      obtain ⟨n1, h1, hd1⟩ := claudeStepChunk_events clock dp s .blockStopOther
      obtain ⟨n2, h2, hd2⟩ := ih (claudeStepChunk clock dp s .blockStopOther)
      exact ⟨n1 ++ n2, by simp [claudeGo, h2, h1], noDoneList_append hd1 hd2⟩
    | otherEvent =>
      obtain ⟨n1, h1, hd1⟩ := claudeStepChunk_events clock dp s .otherEvent
      obtain ⟨n2, h2, hd2⟩ := ih (claudeStepChunk clock dp s .otherEvent)
      exact ⟨n1 ++ n2, by simp [claudeGo, h2, h1], noDoneList_append hd1 hd2⟩

/-- Does this line carry `done: true`? -/
def lineDone : OllamaLine → Bool
  | .data _ true => true
  | _ => false

/-- Does any line of the upstream carry `done: true`? -/
def hasDone (lines : List OllamaLine) : Bool := lines.any lineDone

theorem ollamaHandleToolCall_events (clock : Nat → Nat) (jl : String → Except String Val)
    (dp : String → Val → DispatchOutcome) (s : OLState) (tc : OllamaToolCall) :
    ∃ new, (ollamaHandleToolCall clock jl dp s tc).events = s.events ++ new
    ∧ noDoneList new := by
  have main : ∀ argsE : Except String Val,
      ∃ new, (match argsE with
        | .error em =>
          { s with events := s.events ++ [StreamEvent.error ("Tool call error: " ++ em) (clock s.k)]
                   k := s.k + 1 }
        | .ok args =>
          match dp tc.name args with
          | .envelope true r =>
            { s with events := s.events ++ [StreamEvent.toolResult tc.name r (clock s.k)]
                     k := s.k + 1 }
          | .envelope false _ =>
            { s with events := s.events ++
                [StreamEvent.error "Tool execution failed: Unknown error" (clock s.k)]
                     k := s.k + 1 }
          | .raised m =>
            { s with events := s.events ++
                [StreamEvent.error ("Tool call error: " ++ m) (clock s.k)]
                     k := s.k + 1 }).events = s.events ++ new ∧ noDoneList new := by
    intro argsE
    cases argsE with
    | error em =>
      exact ⟨[.error ("Tool call error: " ++ em) (clock s.k)], rfl,
        by simp [noDoneList, StreamEvent.isDone]⟩
    | ok args =>
      cases hdp : dp tc.name args with
      | envelope b r =>
        cases b
        · simp only [hdp]
          exact ⟨[.error "Tool execution failed: Unknown error" (clock s.k)], rfl,
            by simp [noDoneList, StreamEvent.isDone]⟩
        · simp only [hdp]
          exact ⟨[.toolResult tc.name r (clock s.k)], rfl,
            by simp [noDoneList, StreamEvent.isDone]⟩
      | raised m =>
        simp only [hdp]
        exact ⟨[.error ("Tool call error: " ++ m) (clock s.k)], rfl,
          by simp [noDoneList, StreamEvent.isDone]⟩
  cases har : tc.args with
  | objArgs v =>
    simpa only [ollamaHandleToolCall, har] using main (.ok v)
  | strArgs str =>
    simpa only [ollamaHandleToolCall, har] using main (jl str)

theorem foldl_ollamaHandleToolCall_events (clock : Nat → Nat)
    (jl : String → Except String Val) (dp : String → Val → DispatchOutcome)
    (tcs : List OllamaToolCall) :
    ∀ s : OLState, ∃ new,
      (List.foldl (ollamaHandleToolCall clock jl dp) s tcs).events = s.events ++ new
      ∧ noDoneList new := by
  induction tcs with
  | nil => intro s; exact ⟨[], by simp, noDoneList_nil⟩
  | cons tc rest ih =>
    intro s
    obtain ⟨n1, h1, hd1⟩ := ollamaHandleToolCall_events clock jl dp s tc
    obtain ⟨n2, h2, hd2⟩ := ih (ollamaHandleToolCall clock jl dp s tc)
    exact ⟨n1 ++ n2, by simp [List.foldl_cons, h2, h1], noDoneList_append hd1 hd2⟩

theorem ollamaStepLine_events (clock : Nat → Nat) (jl : String → Except String Val)
    (dp : String → Val → DispatchOutcome) (s : OLState) (l : OllamaLine) :
    (ollamaStepLine clock jl dp s l).2 = lineDone l
    ∧ ∃ new, (ollamaStepLine clock jl dp s l).1.events = s.events ++ new
      ∧ (lineDone l = true →
          ∃ pre t, new = pre ++ [StreamEvent.done t] ∧ noDoneList pre)
      ∧ (lineDone l = false → noDoneList new) := by
  obtain ⟨sk, sev⟩ := s
  cases l with
  | malformed =>
    exact ⟨rfl, [], by simp [ollamaStepLine],
      fun h => by simp [lineDone] at h, fun _ => noDoneList_nil⟩
  | data msg dn =>
    have h1 : ∃ (new1 : List StreamEvent) (k1 : Nat),
        (match msg with
          | some m =>
            match m.tool_calls with
            | some tcs =>
              List.foldl (ollamaHandleToolCall clock jl dp)
                (match m.content with
                  | some c =>
                    if c = "" then (⟨sk, sev⟩ : OLState)
                    else { k := sk + 1
                           events := sev ++ [StreamEvent.aiChunk c (clock sk)] }
                  | none => (⟨sk, sev⟩ : OLState))
                tcs
            | none =>
              match m.content with
              | some c =>
                if c = "" then (⟨sk, sev⟩ : OLState)
                else { k := sk + 1
                       events := sev ++ [StreamEvent.aiChunk c (clock sk)] }
              | none => (⟨sk, sev⟩ : OLState)
          | none => (⟨sk, sev⟩ : OLState)) = ⟨k1, sev ++ new1⟩ ∧ noDoneList new1 := by
      cases msg with
      | none => exact ⟨[], sk, by simp, noDoneList_nil⟩
      | some m =>
        obtain ⟨mc, mtc⟩ := m
        have hsa : ∃ (na : List StreamEvent) (ka : Nat),
            (match mc with
              | some c =>
                if c = "" then (⟨sk, sev⟩ : OLState)
                else { k := sk + 1, events := sev ++ [StreamEvent.aiChunk c (clock sk)] }
              | none => (⟨sk, sev⟩ : OLState)) = ⟨ka, sev ++ na⟩ ∧ noDoneList na := by
          cases mc with
          | none => exact ⟨[], sk, by simp, noDoneList_nil⟩
          | some c =>
            by_cases hc : c = ""
            · exact ⟨[], sk, by simp [hc], noDoneList_nil⟩
            · exact ⟨[.aiChunk c (clock sk)], sk + 1, by simp [hc],
                by simp [noDoneList, StreamEvent.isDone]⟩
        obtain ⟨na, ka, hsaeq, hda⟩ := hsa
        cases mtc with
        | none => exact ⟨na, ka, by simpa using hsaeq, hda⟩
        | some tcs =>
          obtain ⟨nb, hnb, hdb⟩ :=
            foldl_ollamaHandleToolCall_events clock jl dp tcs ⟨ka, sev ++ na⟩
          rcases hfold : List.foldl (ollamaHandleToolCall clock jl dp) ⟨ka, sev ++ na⟩ tcs
            with ⟨fk, fe⟩
          rw [hfold] at hnb
          simp only at hnb
          refine ⟨na ++ nb, fk, ?_, noDoneList_append hda hdb⟩
          dsimp only
          rw [hsaeq, hfold, hnb]
          simp [List.append_assoc]
    obtain ⟨new1, k1, hS, hd1⟩ := h1
    cases dn with
    | true =>
      have hstep : ollamaStepLine clock jl dp ⟨sk, sev⟩ (.data msg true) =
          ({ k := k1 + 1
             events := (sev ++ new1) ++ [StreamEvent.done (clock k1)] }, true) := by
        simp only [ollamaStepLine, hS]
        simp
      refine ⟨by rw [hstep]; simp [lineDone],
        new1 ++ [StreamEvent.done (clock k1)], ?_, ?_, ?_⟩
      · rw [hstep]
        simp [List.append_assoc]
      · intro _
        exact ⟨new1, clock k1, rfl, hd1⟩
      · intro h; simp [lineDone] at h
    | false =>
      have hstep : ollamaStepLine clock jl dp ⟨sk, sev⟩ (.data msg false) =
          (⟨k1, sev ++ new1⟩, false) := by
        simp only [ollamaStepLine, hS]
        simp
      refine ⟨by rw [hstep]; simp [lineDone], new1, ?_, ?_, fun _ => hd1⟩
      · rw [hstep]
      · intro h; simp [lineDone] at h

theorem ollamaGo_events (clock : Nat → Nat) (jl : String → Except String Val)
    (dp : String → Val → DispatchOutcome) (lines : List OllamaLine) :
    ∀ s : OLState,
      (ollamaGo clock jl dp s lines).2 = hasDone lines
      ∧ ∃ new, (ollamaGo clock jl dp s lines).1.events = s.events ++ new
        ∧ (hasDone lines = true →
            ∃ pre t, new = pre ++ [StreamEvent.done t] ∧ noDoneList pre)
        ∧ (hasDone lines = false → noDoneList new) := by
  induction lines with
  | nil =>
    intro s
    exact ⟨rfl, [], by simp [ollamaGo], fun h => by simp [hasDone] at h,
      fun _ => noDoneList_nil⟩
  | cons l rest ih =>
    intro s
    obtain ⟨hsnd, new1, hn1, himpT, himpF⟩ := ollamaStepLine_events clock jl dp s l
    cases hld : lineDone l with
    | true =>
      have hgo : ollamaGo clock jl dp s (l :: rest) =
          ((ollamaStepLine clock jl dp s l).1, true) := by
        simp only [ollamaGo, hsnd, hld, if_true, reduceIte]
      obtain ⟨pre, t, hnew, hpre⟩ := himpT hld
      refine ⟨by simp [hgo, hasDone, hld], pre ++ [StreamEvent.done t], ?_, ?_, ?_⟩
      · simp [hgo, hn1, hnew]
      · intro _; exact ⟨pre, t, rfl, hpre⟩
      · intro hcon; simp [hasDone, hld] at hcon
    | false =>
      have hnd1 : noDoneList new1 := himpF hld
      have hgo : ollamaGo clock jl dp s (l :: rest) =
          ollamaGo clock jl dp (ollamaStepLine clock jl dp s l).1 rest := by
        simp only [ollamaGo, hsnd, hld, Bool.false_eq_true, if_false, reduceIte]
      obtain ⟨hsnd2, new2, hn2, himpT2, himpF2⟩ := ih (ollamaStepLine clock jl dp s l).1
      have hhd : hasDone (l :: rest) = hasDone rest := by simp [hasDone, hld]
      rw [hn1] at hn2
      refine ⟨by rw [hgo, hsnd2, hhd], ?_⟩
      cases hhd2 : hasDone rest with
      | true =>
        obtain ⟨pre2, t2, hnew2, hpre2⟩ := himpT2 hhd2
        refine ⟨new1 ++ (pre2 ++ [StreamEvent.done t2]), ?_, ?_, ?_⟩
        · rw [hgo, hn2, hnew2]
          simp
        · intro _
          exact ⟨new1 ++ pre2, t2, by simp, noDoneList_append hnd1 hpre2⟩
        · intro hcon; rw [hhd] at hcon; rw [hcon] at hhd2; cases hhd2
      | false =>
        have hnd2 : noDoneList new2 := himpF2 hhd2
        refine ⟨new1 ++ new2, ?_, ?_, fun _ => noDoneList_append hnd1 hnd2⟩
        · rw [hgo, hn2]
          simp
        · intro hcon; rw [hhd, hhd2] at hcon; cases hcon

/-- C4 counterexample: the Ollama adapter emits `Done` only when the upstream
sends a `done: true` line; an upstream that delivers one content line and then
ends cleanly (no done line, no exception) produces a stream whose last event is
a `TextDelta` — neither a `Done` nor an `Error` — refuting the claim that every
stream of all three adapters ends with a terminal event. -/
theorem adapters_terminal_last_counterexample :
    ollamaChatStream id jl0 dp0 [contentLine "hi"] none = [.aiChunk "hi" 0]
    ∧ (StreamEvent.aiChunk "hi" 0).isDone = false
    ∧ (StreamEvent.aiChunk "hi" 0).isError = false := by
  refine ⟨rfl, rfl, rfl⟩

/-- C4 amended: no adapter ever emits an event after a `Done` or after its
outer terminal `Error`. For the OpenAI-style and Claude-style adapters every
stream really does end with `Done` or a terminal `Error` (no `Done` appears
earlier). For the Ollama adapter this holds exactly when the upstream contains
a `done: true` line or fails; an upstream that ends cleanly without a done line
yields a stream with no terminal event at all (and still no mid-stream
`Done`). -/
theorem adapters_terminal_last (clock : Nat → Nat) (jl : String → Except String Val)
    (dp : String → Val → DispatchOutcome) :
    (∀ (chunks : List OpenAIChunk) (err : Option String), ∃ evs final,
       (openaiStream clock jl dp chunks err).1 = evs ++ [final]
       ∧ noDoneList evs
       ∧ (final.isDone = true ∨ final.isError = true)
       ∧ (err = none → final.isDone = true))
    ∧ (∀ (chunks : List ClaudeChunk) (err : Option String), ∃ evs final,
       claudeStream clock dp chunks err = evs ++ [final]
       ∧ noDoneList evs
       ∧ (final.isDone = true ∨ final.isError = true))
    ∧ (∀ (lines : List OllamaLine) (err : Option String), ∃ evs,
       noDoneList evs
       ∧ ((hasDone lines = true ∨ ¬ err = none) →
           ∃ final, ollamaChatStream clock jl dp lines err = evs ++ [final]
             ∧ (final.isDone = true ∨ final.isError = true))
       ∧ (hasDone lines = false → err = none →
           ollamaChatStream clock jl dp lines err = evs)) := by
  refine ⟨?_, ?_, ?_⟩
  · intro chunks err
    obtain ⟨new, he, hnd⟩ := foldl_openaiStepChunk_events clock jl dp chunks OAState.init
    have he0 : (List.foldl (openaiStepChunk clock jl dp) OAState.init chunks).events = new := by
      simpa [OAState.init] using he
    cases err with
    | none =>
      exact ⟨new, .done (clock (List.foldl (openaiStepChunk clock jl dp)
          OAState.init chunks).k),
        by simp [openaiStream, he0], hnd, Or.inl rfl, fun _ => rfl⟩
    | some m =>
      refine ⟨new, .error ("OpenAI API error: " ++ m)
        (clock (List.foldl (openaiStepChunk clock jl dp) OAState.init chunks).k),
        by simp [openaiStream, he0], hnd, Or.inr rfl, fun h => by cases h⟩
  · intro chunks err
    obtain ⟨new, he, hnd⟩ := claudeGo_events clock dp chunks CLState.init
    have he0 : (claudeGo clock dp CLState.init chunks).1.events = new := by
      simpa [CLState.init] using he
    cases err with
    | none =>
      exact ⟨new, .done (clock (claudeGo clock dp CLState.init chunks).1.k),
        by simp [claudeStream, he0], hnd, Or.inl rfl⟩
    | some m =>
      cases hb : (claudeGo clock dp CLState.init chunks).2 with
      | true =>
        exact ⟨new, .done (clock (claudeGo clock dp CLState.init chunks).1.k),
          by simp [claudeStream, hb, he0], hnd, Or.inl rfl⟩
      | false =>
        exact ⟨new, .error ("Claude API error: " ++ m)
            (clock (claudeGo clock dp CLState.init chunks).1.k),
          by simp [claudeStream, hb, he0], hnd, Or.inr rfl⟩
  · intro lines err
    obtain ⟨hsnd, new, he, himpT, himpF⟩ := ollamaGo_events clock jl dp lines OLState.init
    have he0 : (ollamaGo clock jl dp OLState.init lines).1.events = new := by
      simpa [OLState.init] using he
    cases hhd : hasDone lines with
    | true =>
      obtain ⟨pre, t, hnew, hpre⟩ := himpT hhd
      refine ⟨pre, hpre, fun _ => ?_, fun hcon _ => Bool.noConfusion hcon⟩
      refine ⟨.done t, ?_, Or.inl rfl⟩
      have : ollamaChatStream clock jl dp lines err =
          (ollamaGo clock jl dp OLState.init lines).1.events := by
        simp only [ollamaChatStream, hsnd, hhd, if_true, reduceIte]
      rw [this, he0, hnew]
    | false =>
      cases err with
      | none =>
        refine ⟨new, himpF hhd, fun hor => ?_, fun _ _ => ?_⟩
        · rcases hor with h | h
          · exact Bool.noConfusion h
          · exact absurd rfl h
        · have : ollamaChatStream clock jl dp lines none =
              (ollamaGo clock jl dp OLState.init lines).1.events := by
            simp only [ollamaChatStream, hsnd, hhd, Bool.false_eq_true, if_false, reduceIte]
          rw [this, he0]
      | some m =>
        refine ⟨new, himpF hhd, fun _ => ?_, fun _ hcon => by cases hcon⟩
        refine ⟨.error ("Ollama API error: " ++ m)
          (clock (ollamaGo clock jl dp OLState.init lines).1.k), ?_, Or.inr rfl⟩
        have : ollamaChatStream clock jl dp lines (some m) =
            (ollamaGo clock jl dp OLState.init lines).1.events ++
              [.error ("Ollama API error: " ++ m)
                (clock (ollamaGo clock jl dp OLState.init lines).1.k)] := by
          simp only [ollamaChatStream, hsnd, hhd, Bool.false_eq_true, if_false, reduceIte]
        rw [this, he0]

/-- C4 amended, witness: at concrete inputs — one text chunk for the OpenAI
adapter with a clean upstream end, and a single `done: true` line for the
Ollama adapter — the streams end in a terminal event with no `Done` before
it. -/
theorem adapters_terminal_last_witness :
    (∃ evs final, (openaiStream id jl0 dp0 [textChunk "hi"] none).1 = evs ++ [final]
      ∧ noDoneList evs ∧ (final.isDone = true ∨ final.isError = true)
      ∧ (none = (none : Option String) → final.isDone = true))
    ∧ (∃ evs, noDoneList evs
      ∧ ∃ final, ollamaChatStream id jl0 dp0 [doneLine] none = evs ++ [final]
        ∧ (final.isDone = true ∨ final.isError = true)) := by
  refine ⟨(adapters_terminal_last id jl0 dp0).1 [textChunk "hi"] none, ?_⟩
  obtain ⟨evs, hnd, himp, _⟩ := (adapters_terminal_last id jl0 dp0).2.2 [doneLine] none
  exact ⟨evs, hnd, himp (Or.inl (by decide))⟩

/-! ### Context rendering: primary messages vs fallback prompt -/

theorem mem_pyJoin (sep : String) : ∀ (l : List String) (q : String), q ∈ l →
    ∃ x y : String, pyJoin sep l = x ++ q ++ y := by
  intro l
  induction l with
  | nil => intro q hq; cases hq
  | cons a rest ih =>
    intro q hq
    cases rest with
    | nil =>
      have hqa : q = a := by simpa using hq
      subst hqa
      exact ⟨"", "", by simp [pyJoin, String.empty_append, String.append_empty]⟩
    | cons b rest2 =>
      rcases List.mem_cons.mp hq with rfl | hmem
      · exact ⟨"", sep ++ pyJoin sep (b :: rest2), by
          simp [pyJoin, String.empty_append, String.append_assoc]⟩
      · obtain ⟨x, y, hxy⟩ := ih q hmem
        refine ⟨a ++ sep ++ x, y, ?_⟩
        show a ++ sep ++ pyJoin sep (b :: rest2) = a ++ sep ++ x ++ q ++ y
        rw [hxy]
        simp [String.append_assoc]

/-- A string `s` contains `p` as a contiguous substring iff `p`'s characters
are an infix of `s`'s characters. -/
theorem substr_iff (p s : String) :
    (∃ x y : String, s = x ++ p ++ y) ↔ p.data <:+: s.data := by
  constructor
  · rintro ⟨x, y, rfl⟩
    exact ⟨x.data, y.data, by simp [String.data_append]⟩
  · rintro ⟨u, v, huv⟩
    refine ⟨⟨u⟩, ⟨v⟩, String.ext ?_⟩
    simp only [String.data_append]
    exact huv.symm

/-- Each context part rendered by `_prepare_messages` reappears in
`_prepare_prompt_with_context`, either verbatim or with one extra leading
newline. -/
theorem context_part_in_fallback (ctx : ChatContext) :
    ∀ part ∈ ollamaContextParts ctx,
      part ∈ fallbackContextParts ctx ∨ ("\n" ++ part) ∈ fallbackContextParts ctx := by
  intro part hp
  unfold ollamaContextParts at hp
  unfold fallbackContextParts
  rcases List.mem_append.mp hp with hAB | hC
  · rcases List.mem_append.mp hAB with hA | hB
    · by_cases h1 : (truthyS ctx.file_path && truthyS ctx.code_content) = true
      · simp only [h1, if_true, reduceIte] at hA
        rcases List.mem_cons.mp hA with rfl | hA2
        · right
          simp only [h1, if_true, reduceIte]
          refine List.mem_append.mpr (Or.inl (List.mem_append.mpr (Or.inl ?_)))
          have : ("\n" : String) ++ ("Current file: " ++ ctx.file_path.getD "") =
              "\nCurrent file: " ++ ctx.file_path.getD "" := by
            rw [← String.append_assoc]
            rfl
          simp [this]
        · left
          simp only [h1, if_true, reduceIte]
          have : part = "Current code:\n```\n" ++ ctx.code_content.getD "" ++ "\n```" := by
            simpa using hA2
          simp [this]
      · simp only [h1, Bool.false_eq_true, if_false, reduceIte] at hA
        cases hA
    · by_cases h2 : truthyS ctx.working_directory = true
      · simp only [h2, if_true, reduceIte] at hB
        have : part = "Working directory: " ++ ctx.working_directory.getD "" := by
          simpa using hB
        right
        simp only [h2, if_true, reduceIte]
        refine List.mem_append.mpr (Or.inl (List.mem_append.mpr (Or.inr ?_)))
        have hlit : ("\n" : String) ++ ("Working directory: " ++ ctx.working_directory.getD "") =
            "\nWorking directory: " ++ ctx.working_directory.getD "" := by
          rw [← String.append_assoc]
          rfl
        simp [this, hlit]
      · simp only [h2, Bool.false_eq_true, if_false, reduceIte] at hB
        cases hB
  · by_cases h3 : truthyRefs ctx.referenced_files = true
    · simp only [h3, if_true, reduceIte] at hC
      rcases List.mem_cons.mp hC with rfl | hC2
      · right
        simp only [h3, if_true, reduceIte]
        refine List.mem_append.mpr (Or.inr (List.mem_cons.mpr (Or.inl ?_)))
        rfl
      · left
        simp only [h3, if_true, reduceIte]
        exact List.mem_append.mpr (Or.inr (List.mem_cons.mpr (Or.inr hC2)))
    · simp only [h3, Bool.false_eq_true, if_false, reduceIte] at hC
      cases hC

/-- C9 amended: the fallback path does not literally reuse the primary path's
context formatting — `_prepare_prompt_with_context` re-renders the context with
the same per-field templates, in the same order, but with an extra leading
newline on the first line of each field group and single-newline joining, so
the primary context message as a whole need not appear in the fallback prompt;
what does hold is that every individual context part of the primary message
(current file line, code block, working directory line, referenced-files header
and each referenced-file block) appears verbatim as a contiguous substring of
the fallback prompt. -/
theorem fallback_prompt_contains_each_part (msg : String) (ctx : ChatContext) :
    ∀ part ∈ ollamaContextParts ctx,
      ∃ x y : String,
        ollama_prepare_prompt_with_context msg (some ctx) = x ++ part ++ y := by
  intro part hp
  have hprompt : ollama_prepare_prompt_with_context msg (some ctx) =
      pyJoin "\n" (fallbackSysLine ::
        fallbackContextParts ctx ++ ["\nUser request: " ++ msg]) := rfl
  rcases context_part_in_fallback ctx part hp with hin | hin
  · obtain ⟨x, y, hxy⟩ := mem_pyJoin "\n"
      (fallbackSysLine :: fallbackContextParts ctx ++ ["\nUser request: " ++ msg]) part
      (by simp [hin])
    exact ⟨x, y, by rw [hprompt, hxy]⟩
  · obtain ⟨x, y, hxy⟩ := mem_pyJoin "\n"
      (fallbackSysLine :: fallbackContextParts ctx ++ ["\nUser request: " ++ msg])
      ("\n" ++ part) (by simp [hin])
    refine ⟨x ++ "\n", y, ?_⟩
    rw [hprompt, String.append_assoc x "\n" part]
    exact hxy

/-- C9 amended, witness: with a context holding a current file and code, the
first primary context part appears verbatim in the concrete fallback prompt. -/
theorem fallback_prompt_contains_each_part_witness :
    ∃ x y : String,
      ollama_prepare_prompt_with_context "m"
          (some { file_path := some "a.py", code_content := some "x"
                  project_structure := none, referenced_files := none
                  working_directory := none }) =
        x ++ "Current file: a.py" ++ y := by
  have h := fallback_prompt_contains_each_part "m"
    { file_path := some "a.py", code_content := some "x"
      project_structure := none, referenced_files := none
      working_directory := none } "Current file: a.py" (by decide)
  exact h

set_option maxRecDepth 40000

/-- C9 counterexample: the claim that the fallback prompt contains exactly the
same rendering of the context as the primary message list, merely flattened,
fails: for a context with a current file and code, the primary path's context
message (the parts joined with blank lines) is not a substring of the fallback
prompt — the fallback joins with single newlines and leading newlines, so the
file line and the code block are separated differently. -/
theorem fallback_prompt_not_same_rendering_counterexample :
    ¬ ∃ x y : String,
      ollama_prepare_prompt_with_context "m"
          (some { file_path := some "a.py", code_content := some "x"
                  project_structure := none, referenced_files := none
                  working_directory := none }) =
        x ++ pyJoin "\n\n" (ollamaContextParts
          { file_path := some "a.py", code_content := some "x"
            project_structure := none, referenced_files := none
            working_directory := none }) ++ y := by
  intro h
  exact absurd ((substr_iff _ _).mp h) (by decide)

end Codex
